import Mathlib

/-!
# NibeGwComponent: request queue, token dispatch, dedup filter, UDP intake

A shallow embedding of `components/nibegw/NibeGwComponent.cpp`.

* Bytes (`uint8_t`) and addresses (`uint16_t`) are natural numbers; the C++ types bound them.
* A `const uint8_t *` input is the map from an offset to the byte stored there.
* A `uint8_t *` output buffer is the list of bytes it holds; a write of `n` bytes replaces
  its first `n` entries.
* `std::map` is a function from keys to `Option`: `find(key) == end()` is `none`.
* `std::queue` is a list, front first: `front`/`pop` take the head, `push` appends.
* The registered callables (providers, listeners) are closures over state the component
  never looks at. That state is the type `Env`; a provider reads and may change it and
  returns a payload, a listener consumes a payload and may change it.
* `MAX_DATA_LEN`, `STARTBYTE_MASTER`, `MODBUS40`, `READ_TOKEN` and `WRITE_TOKEN` come from a
  header outside this file and are parameters throughout.
* The socket calls a function makes are returned as a list, in the order made; what the
  operating system answers to each is an argument of the function.
-/

namespace esphome
namespace nibegw

/-- The payload type `std::vector<uint8_t>`. -/
abbrev request_data_type := List Nat

/-- The key type `std::tuple<uint16_t, byte>`: bus address, then command or token. -/
abbrev request_key_type := Nat × Nat

/-- An IPv4 address (`network::IPAddress`), compared with `==`. -/
abbrev IPAddress := Nat

/-- The conversion `uint8_t x = ~val`: complement, truncated to eight bits. -/
def bitnot_u8 (val : Nat) : Nat := (255 - val % 256) % 256

/-- The `for (int i = 5; i < len - 1; i++)` loop of `dedup`, one iteration per unit of
fuel; `i`, `value` and `message` are the loop's variables. -/
def dedup_loop (data : Nat → Nat) (len : Int) (val : Nat) :
    Nat → Nat → Nat → request_data_type → request_data_type
  | 0, _, _, message => message
  | fuel + 1, i, value, message =>
    if (i : Int) < len - 1 then
      if data i = val ∧ value = val then
        dedup_loop data len val fuel (i + 1) (bitnot_u8 val) message
      else
        dedup_loop data len val fuel (i + 1) (data i) (message ++ [data i])
    else
      message

/-- The function `dedup(data, len, val)`. The loop runs `len - 6` times when `len > 6`
and not at all otherwise, which is the fuel supplied. -/
def dedup (data : Nat → Nat) (len : Int) (val : Nat) : request_data_type :=
  dedup_loop data len val (len - 6).toNat 5 (bitnot_u8 val) []

/-- The memory behind a pointer to the first byte of a frame held in a list. -/
def frame_mem (frame : List Nat) : Nat → Nat := fun i => frame.getD i 0

/-- The fields of `NibeGwComponent` that the embedded functions read or write. -/
structure NibeGwComponent (Env : Type) where
  /-- Listener per key (`message_listener_`). -/
  message_listener_ : request_key_type → Option (request_data_type → Env → Env)
  /-- Queue of pending payloads per key (`requests_`). -/
  requests_ : request_key_type → Option (List request_data_type)
  /-- Provider per key (`requests_provider_`). -/
  requests_provider_ : request_key_type → Option (Env → request_data_type × Env)
  /-- Destinations, address and port (`udp_targets_`). -/
  udp_targets_ : List (IPAddress × Nat)
  /-- Permitted origins (`udp_source_ip_`). -/
  udp_source_ip_ : List IPAddress
  /-- Connectivity flag (`is_connected_`). -/
  is_connected_ : Bool
  /-- Descriptor of the read socket, negative when unusable (`udp_read_fd_`). -/
  udp_read_fd_ : Int
  /-- Descriptor of the write socket, negative when unusable (`udp_write_fd_`). -/
  udp_write_fd_ : Int
  /-- Configured read port (`udp_read_port_`). -/
  udp_read_port_ : Nat
  /-- Configured write port (`udp_write_port_`). -/
  udp_write_port_ : Nat

/-- A component with nothing registered, nothing queued and no network. -/
def NibeGwComponent.fresh (Env : Type) : NibeGwComponent Env where
  message_listener_ := fun _ => none
  requests_ := fun _ => none
  requests_provider_ := fun _ => none
  udp_targets_ := []
  udp_source_ip_ := []
  is_connected_ := false
  udp_read_fd_ := -1
  udp_write_fd_ := -1
  udp_read_port_ := 9999
  udp_write_port_ := 10000

/-- Modelled from the spec: `add_queued_request` is defined in `NibeGwComponent.h`, which
is not among the sources. Spec 4.3: "`enqueue(key, payload)` — appends payload to the
key's queue, creating the queue if absent." -/
def add_queued_request {Env : Type} (self : NibeGwComponent Env) (address token : Nat)
    (request : request_data_type) : NibeGwComponent Env :=
  { self with
    requests_ := Function.update self.requests_ (address, token)
      (some ((self.requests_ (address, token)).getD [] ++ [request])) }

/-- The function `copy_request(request, data)`: the returned length and the buffer after
`std::copy_n(request.begin(), len, data)`. -/
def copy_request (MAX_DATA_LEN : Nat) (request : request_data_type) (data : List Nat) :
    Nat × List Nat :=
  let len := min request.length MAX_DATA_LEN
  (len, request.take len ++ data.drop len)

/-- What one call of `callback_msg_token_received` leaves behind: the returned length,
the output buffer, the component and the callables' state. -/
structure TokenResult (Env : Type) where
  /-- Returned length. -/
  len : Nat
  /-- Output buffer after the call. -/
  data : List Nat
  /-- Component after the call. -/
  self : NibeGwComponent Env
  /-- Callables' state after the call. -/
  env : Env

/-- The method `callback_msg_token_received(address, command, data)`. -/
def callback_msg_token_received {Env : Type} (MAX_DATA_LEN : Nat) (self : NibeGwComponent Env)
    (address command : Nat) (data : List Nat) (env : Env) : TokenResult Env :=
  let key : request_key_type := (address, command)
  match self.requests_ key with
  | some (front :: rest) =>
    let r := copy_request MAX_DATA_LEN front data
    ⟨r.1, r.2, { self with requests_ := Function.update self.requests_ key (some rest) }, env⟩
  | _ =>
    match self.requests_provider_ key with
    | some provider =>
      let out := provider env
      let r := copy_request MAX_DATA_LEN out.1 data
      ⟨r.1, r.2, self, out.2⟩
    | none => ⟨0, data, self, env⟩

/-- The method `is_source_ip_allowed(ip)`. -/
def is_source_ip_allowed {Env : Type} (self : NibeGwComponent Env) (ip : IPAddress) : Bool :=
  if self.udp_source_ip_.isEmpty then true
  else self.udp_source_ip_.contains ip

/-- The method `handle_udp_packet(data, len, from_ip, address, token)`; the payload built
by `request.assign(data, data + len)` is the bytes at offsets `0 .. len - 1`. -/
def handle_udp_packet {Env : Type} (MAX_DATA_LEN : Nat) (self : NibeGwComponent Env)
    (data : Nat → Nat) (len : Int) (from_ip : IPAddress) (address token : Nat) :
    NibeGwComponent Env :=
  if !self.is_connected_ then self
  else if len = 0 then self
  else if len > (MAX_DATA_LEN : Int) then self
  else if !is_source_ip_allowed self from_ip then self
  else add_queued_request self address token ((List.range len.toNat).map data)

/-- One call into the socket layer, with what it was given and what it answered. -/
inductive SysCall where
  /-- The call `::socket(AF_INET, SOCK_DGRAM, IPPROTO_UDP)` and the descriptor returned. -/
  | socket (result : Int)
  /-- The two `fcntl` calls that make a descriptor non-blocking. -/
  | nonblock (fd : Int)
  /-- The call `bind(fd, INADDR_ANY : port)` and its return value. -/
  | bind (fd : Int) (port : Nat) (result : Int)
  /-- The call `::close(fd)`. -/
  | close (fd : Int)
  /-- The call `recvfrom(fd, buf, sizeof(buf), ...)` and its return value. -/
  | recvfrom (fd : Int) (result : Int)
  /-- The call `sendto(fd, data, len, 0, ip : port)` with the bytes sent and its return value. -/
  | sendto (fd : Int) (bytes : List Nat) (ip : IPAddress) (port : Nat) (result : Int)
  deriving DecidableEq

/-- What the network library answers during `callback_msg_received`. -/
structure SendOutcomes where
  /-- Return value of `inet_pton(AF_INET, ip.str().c_str(), ...)` for an address. -/
  inet_pton : IPAddress → Int
  /-- Return value of the `sendto` made for the target at a position of `udp_targets_`. -/
  sendto : Nat → Int

/-- The loop `for (target = udp_targets_.begin(); ...)` of `callback_msg_received`, from
the target at position `i` on; `fd` is `udp_read_fd_` and `bytes` the `len` bytes at
`data`. -/
def send_to_targets (fd : Int) (net : SendOutcomes) (bytes : List Nat) :
    Nat → List (IPAddress × Nat) → List SysCall
  | _, [] => []
  | i, target :: rest =>
    if fd < 0 then
      send_to_targets fd net bytes (i + 1) rest
    else if net.inet_pton target.1 ≤ 0 then
      send_to_targets fd net bytes (i + 1) rest
    else
      SysCall.sendto fd bytes target.1 target.2 (net.sendto i)
        :: send_to_targets fd net bytes (i + 1) rest

/-- What one call of `callback_msg_received` leaves behind: the callables' state and the
socket calls made. The component itself is not written. -/
structure ReceivedResult (Env : Type) where
  /-- Callables' state after the call. -/
  env : Env
  /-- Socket calls made, in order. -/
  calls : List SysCall

/-- The method `callback_msg_received(data, len)`. -/
def callback_msg_received {Env : Type} (STARTBYTE_MASTER : Nat) (self : NibeGwComponent Env)
    (net : SendOutcomes) (data : Nat → Nat) (len : Int) (env : Env) : ReceivedResult Env :=
  let key : request_key_type := ((data 2 ||| (data 1 <<< 8)) % 65536, data 3)
  let env1 :=
    match self.message_listener_ key with
    | some listener => listener (dedup data len STARTBYTE_MASTER) env
    | none => env
  if !self.is_connected_ then ⟨env1, []⟩
  else
    ⟨env1, send_to_targets self.udp_read_fd_ net ((List.range len.toNat).map data) 0
      self.udp_targets_⟩

/-- What `recvfrom` answers at one poll: the return value, the bytes placed in `buf` and
the sender's address. -/
structure Received where
  /-- Return value of `recvfrom`. -/
  n : Int
  /-- Contents of `buf` after the call. -/
  buf : Nat → Nat
  /-- Sender, as rebuilt from the four octets of `from.sin_addr`. -/
  from_ip : IPAddress

/-- What the outside world answers during one call of `loop`. -/
structure LoopInput where
  /-- Value of `network::is_connected()` at the first test. -/
  network_up : Bool
  /-- Value of `network::is_connected()` at the second test. -/
  network_up_again : Bool
  /-- Descriptor returned by `::socket` for the read socket. -/
  socket_read : Int
  /-- Return value of `bind` for the read socket. -/
  bind_read : Int
  /-- Descriptor returned by `::socket` for the write socket. -/
  socket_write : Int
  /-- Return value of `bind` for the write socket. -/
  bind_write : Int
  /-- Answer of `recvfrom` on the read socket. -/
  recv_read : Received
  /-- Answer of `recvfrom` on the write socket. -/
  recv_write : Received

/-- A component together with the socket calls made so far in the current `loop`. -/
structure Tick (Env : Type) where
  /-- Component. -/
  self : NibeGwComponent Env
  /-- Socket calls made, in order. -/
  calls : List SysCall

/-- The block of `loop` that creates one socket, makes it non-blocking and binds it; the
source has it twice, for `udp_read_fd_` with `udp_read_port_` and for `udp_write_fd_`
with `udp_write_port_`. Returns the value left in the descriptor field and the calls. -/
def open_and_bind (socket_result bind_result : Int) (port : Nat) : Int × List SysCall :=
  if socket_result ≥ 0 then
    if bind_result < 0 then
      (-1, [SysCall.socket socket_result, SysCall.nonblock socket_result,
            SysCall.bind socket_result port bind_result, SysCall.close socket_result])
    else
      (socket_result, [SysCall.socket socket_result, SysCall.nonblock socket_result,
            SysCall.bind socket_result port bind_result])
  else
    (socket_result, [SysCall.socket socket_result])

/-- First block of `loop`: `if (network::is_connected() && !is_connected_) { ... }`. -/
def loop_connect {Env : Type} (inp : LoopInput) (t : Tick Env) : Tick Env :=
  if inp.network_up && !t.self.is_connected_ then
    let r := open_and_bind inp.socket_read inp.bind_read t.self.udp_read_port_
    let w := open_and_bind inp.socket_write inp.bind_write t.self.udp_write_port_
    ⟨{ t.self with udp_read_fd_ := r.1, udp_write_fd_ := w.1, is_connected_ := true },
      t.calls ++ r.2 ++ w.2⟩
  else t

/-- Second block of `loop`: `if (!network::is_connected() && is_connected_) { ... }`. -/
def loop_disconnect {Env : Type} (inp : LoopInput) (t : Tick Env) : Tick Env :=
  if !inp.network_up_again && t.self.is_connected_ then
    let closed_read := if t.self.udp_read_fd_ ≥ 0 then [SysCall.close t.self.udp_read_fd_] else []
    let read_fd := if t.self.udp_read_fd_ ≥ 0 then -1 else t.self.udp_read_fd_
    let closed_write :=
      if t.self.udp_write_fd_ ≥ 0 then [SysCall.close t.self.udp_write_fd_] else []
    let write_fd := if t.self.udp_write_fd_ ≥ 0 then -1 else t.self.udp_write_fd_
    ⟨{ t.self with udp_read_fd_ := read_fd, udp_write_fd_ := write_fd, is_connected_ := false },
      t.calls ++ closed_read ++ closed_write⟩
  else t

/-- Third block of `loop`: poll the read socket and hand a datagram to
`handle_udp_packet` under `(MODBUS40, READ_TOKEN)`. -/
def loop_poll_read {Env : Type} (MAX_DATA_LEN MODBUS40 READ_TOKEN : Nat) (inp : LoopInput)
    (t : Tick Env) : Tick Env :=
  if t.self.is_connected_ && decide (t.self.udp_read_fd_ ≥ 0) then
    if inp.recv_read.n > 0 then
      ⟨handle_udp_packet MAX_DATA_LEN t.self inp.recv_read.buf inp.recv_read.n
          inp.recv_read.from_ip MODBUS40 READ_TOKEN,
        t.calls ++ [SysCall.recvfrom t.self.udp_read_fd_ inp.recv_read.n]⟩
    else ⟨t.self, t.calls ++ [SysCall.recvfrom t.self.udp_read_fd_ inp.recv_read.n]⟩
  else t

/-- Fourth block of `loop`: poll the write socket and hand a datagram to
`handle_udp_packet` under `(MODBUS40, WRITE_TOKEN)`. -/
def loop_poll_write {Env : Type} (MAX_DATA_LEN MODBUS40 WRITE_TOKEN : Nat) (inp : LoopInput)
    (t : Tick Env) : Tick Env :=
  if t.self.is_connected_ && decide (t.self.udp_write_fd_ ≥ 0) then
    if inp.recv_write.n > 0 then
      ⟨handle_udp_packet MAX_DATA_LEN t.self inp.recv_write.buf inp.recv_write.n
          inp.recv_write.from_ip MODBUS40 WRITE_TOKEN,
        t.calls ++ [SysCall.recvfrom t.self.udp_write_fd_ inp.recv_write.n]⟩
    else ⟨t.self, t.calls ++ [SysCall.recvfrom t.self.udp_write_fd_ inp.recv_write.n]⟩
  else t

/-- The method `loop()` up to its last two statements. Those (`high_freq_` and
`gw_->loop()`) hand control to the bus transport, which acts on the component only
through `callback_msg_received` and `callback_msg_token_received`. -/
def loop {Env : Type} (MAX_DATA_LEN MODBUS40 READ_TOKEN WRITE_TOKEN : Nat)
    (self : NibeGwComponent Env) (inp : LoopInput) : Tick Env :=
  loop_poll_write MAX_DATA_LEN MODBUS40 WRITE_TOKEN inp
    (loop_poll_read MAX_DATA_LEN MODBUS40 READ_TOKEN inp
      (loop_disconnect inp (loop_connect inp ⟨self, []⟩)))

/-! ## Reference definitions used to state the properties -/

/-- The bytes at offsets `5 .. len - 2` of a frame, in order: the window `dedup` scans. -/
def dedup_window (data : Nat → Nat) (len : Int) : List Nat :=
  (List.range (len - 6).toNat).map (fun j => data (5 + j))

/-- The scan of spec 4.1, over a window and with a flag: when the current byte equals `M`
and the flag is raised, skip the byte and lower the flag; otherwise emit the byte and
raise the flag exactly when the emitted byte equals `M`. -/
def reference_scan (M : Nat) : Bool → List Nat → List Nat
  | _, [] => []
  | flag, b :: rest =>
    if b = M ∧ flag = true then reference_scan M false rest
    else b :: reference_scan M (decide (b = M)) rest

/-- Byte stuffing: every occurrence of `M` in the payload is doubled. -/
def stuff (M : Nat) : List Nat → List Nat
  | [] => []
  | b :: rest => if b = M then M :: M :: stuff M rest else b :: stuff M rest

/-- Consecutive calls of `callback_msg_token_received` for one key, one per output buffer
in the list, each call starting from the component and the callables' state the call
before it left; the results are listed in call order. -/
def token_requests {Env : Type} (MAX_DATA_LEN : Nat) (self : NibeGwComponent Env)
    (address command : Nat) : List (List Nat) → Env → List (TokenResult Env)
  | [], _ => []
  | data :: rest, env =>
    let r := callback_msg_token_received MAX_DATA_LEN self address command data env
    r :: token_requests MAX_DATA_LEN r.self address command rest r.env

/-- A component for the examples: the payload `[1, 2, 3]` queued under `(0x0020, 0x06)`
and, under the same key, a provider that returns `[0xAA]` and counts its invocations in
the callables' state. -/
def queued_example : NibeGwComponent Nat :=
  { NibeGwComponent.fresh Nat with
    requests_ := Function.update (fun _ => none) (0x0020, 0x06) (some [[1, 2, 3]]),
    requests_provider_ :=
      Function.update (fun _ => none) (0x0020, 0x06) (some (fun n => ([0xAA], n + 1))) }

/-- A component for the examples: nothing queued, and a provider under `(0x0016, 0x00)`
that returns `[0xAA]` and counts its invocations in the callables' state. -/
def provider_example : NibeGwComponent Nat :=
  { NibeGwComponent.fresh Nat with
    requests_provider_ :=
      Function.update (fun _ => none) (0x0016, 0x00) (some (fun n => ([0xAA], n + 1))) }

/-- An output buffer of eight zero bytes for the examples. -/
def buffer_example : List Nat := List.replicate 8 0

/-- A component for the examples: one payload of 130 bytes queued under `(0x0020, 0x06)`. -/
def oversize_example : NibeGwComponent Nat :=
  { NibeGwComponent.fresh Nat with
    requests_ := Function.update (fun _ => none) (0x0020, 0x06) (some [List.replicate 130 7]) }

/-- A connected component for the examples that admits datagrams from `192.168.0.1` only. -/
def guarded_example : NibeGwComponent Nat :=
  { NibeGwComponent.fresh Nat with is_connected_ := true, udp_source_ip_ := [0xC0A80001] }

/-- A connected component for the examples with an empty allow-list. -/
def open_example : NibeGwComponent Nat :=
  { NibeGwComponent.fresh Nat with is_connected_ := true }

/-- A connected component for the examples: read socket 3, write socket 4, an empty
allow-list, three targets of which the first and the last are the same, and under
`(0x0020, 0x68)` a listener that records the payload it is given and counts its
invocations. -/
def connected_example : NibeGwComponent (List (List Nat) × Nat) :=
  { NibeGwComponent.fresh (List (List Nat) × Nat) with
    is_connected_ := true,
    udp_read_fd_ := 3,
    udp_write_fd_ := 4,
    udp_targets_ := [(0xC0A80164, 9999), (0xC0A80165, 9998), (0xC0A80164, 9999)],
    message_listener_ :=
      Function.update (fun _ => none) (0x0020, 0x68)
        (some (fun payload seen => (seen.1 ++ [payload], seen.2 + 1))) }

/-- A poll that finds the three-byte datagram `[1, 2, 3]` from `192.168.0.2`. -/
def datagram_example : Received := ⟨3, frame_mem [1, 2, 3], 0xC0A80002⟩

/-- Every payload in every queue has a length between 1 and `MAX_DATA_LEN`. -/
def queues_bounded {Env : Type} (MAX_DATA_LEN : Nat) (self : NibeGwComponent Env) : Prop :=
  ∀ (key : request_key_type) (queue : List request_data_type),
    self.requests_ key = some queue →
    ∀ p ∈ queue, 1 ≤ p.length ∧ p.length ≤ MAX_DATA_LEN

/-- A component for the examples: under `(0x0020, 0x06)` a queue holding a payload of 130
bytes and then `[9]`. -/
def oversize_then_short_example : NibeGwComponent Nat :=
  { NibeGwComponent.fresh Nat with
    requests_ :=
      Function.update (fun _ => none) (0x0020, 0x06) (some [List.replicate 130 7, [9]]) }

/-- Answers of the network library for the examples: the address `192.168.1.101` does
not parse, and the first `sendto` fails. -/
def outcomes_example : SendOutcomes :=
  ⟨fun ip => if ip = 0xC0A80165 then 0 else 1, fun i => if i = 0 then -1 else 10⟩

/-- A ten-byte frame for the examples, addressed `0x0020`, command `0x68`, whose window
holds a doubled `0x5C`. -/
def frame_example : List Nat := [0x5C, 0x00, 0x20, 0x68, 0x04, 1, 0x5C, 0x5C, 2, 0x77]

/-- A piece of a window cut into runs: one byte other than the mask byte, or `k`
consecutive mask bytes. -/
inductive Segment where
  /-- A single byte. -/
  | byte (b : Nat)
  /-- A run of `k` mask bytes. -/
  | run (k : Nat)
  deriving DecidableEq

/-- The bytes a list of segments stands for. -/
def expand (M : Nat) : List Segment → List Nat
  | [] => []
  | Segment.byte b :: rest => b :: expand M rest
  | Segment.run k :: rest => List.replicate k M ++ expand M rest

/-- The run-length rule: a byte stays, a run of `k` mask bytes becomes `ceil(k/2)`. -/
def collapse (M : Nat) : List Segment → List Nat
  | [] => []
  | Segment.byte b :: rest => b :: collapse M rest
  | Segment.run k :: rest => List.replicate ((k + 1) / 2) M ++ collapse M rest

/-- The sum over the runs of `floor(k/2)`. -/
def removed : List Segment → Nat
  | [] => 0
  | Segment.byte _ :: rest => removed rest
  | Segment.run k :: rest => k / 2 + removed rest

/-- Whether a list of segments begins with a run. -/
def starts_with_run : List Segment → Bool
  | Segment.run _ :: _ => true
  | _ => false

/-- Whether the segments are the maximal runs of what they stand for: single bytes differ
from the mask byte, runs are non-empty, and no run is followed directly by another. -/
def maximal_runs (M : Nat) : List Segment → Bool
  | [] => true
  | Segment.byte b :: rest => decide (b ≠ M) && maximal_runs M rest
  | Segment.run k :: rest => decide (1 ≤ k) && !starts_with_run rest && maximal_runs M rest

/-- The cut of a window into its maximal runs of the mask byte and its other bytes. -/
def segments (M : Nat) : List Nat → List Segment
  | [] => []
  | b :: rest =>
    if b = M then
      match segments M rest with
      | Segment.run k :: tail => Segment.run (k + 1) :: tail
      | [] => [Segment.run 1]
      | Segment.byte c :: tail => Segment.run 1 :: Segment.byte c :: tail
    else Segment.byte b :: segments M rest

/-- The payload `handle_udp_packet` builds from what a poll answered: the bytes at
offsets `0 .. n - 1` of `buf`. -/
def datagram_bytes (r : Received) : request_data_type :=
  (List.range r.n.toNat).map r.buf

/-- Whether a tick of `loop` enqueues what the poll on descriptor `fd` answered: the
component is connected, the descriptor is valid, the returned length is positive and at
most `MAX_DATA_LEN`, and the sender is allowed. -/
def datagram_taken {Env : Type} (MAX_DATA_LEN : Nat) (self : NibeGwComponent Env) (fd : Int)
    (r : Received) : Bool :=
  self.is_connected_ && decide (0 ≤ fd) && decide (0 < r.n)
    && decide (r.n ≤ (MAX_DATA_LEN : Int)) && is_source_ip_allowed self r.from_ip

/-- A poll that finds the two-byte datagram `[8, 9]` from `192.168.0.3`. -/
def second_datagram_example : Received := ⟨2, frame_mem [8, 9], 0xC0A80003⟩

/-- One tick with the network up and a datagram on each socket. -/
def both_tick_example : LoopInput :=
  ⟨true, true, 5, 0, 6, 0, datagram_example, second_datagram_example⟩

theorem bitnot_u8_ne (val : Nat) : bitnot_u8 val ≠ val := by
  unfold bitnot_u8
  omega

theorem range_succ_map_shift (f : Nat → Nat) (i n : Nat) :
    (List.range (n + 1)).map (fun j => f (i + j))
      = f i :: (List.range n).map (fun j => f (i + 1 + j)) := by
  rw [List.range_succ_eq_map, List.map_cons, List.map_map]
  congr 1
  apply List.map_congr_left
  intro j _
  simp only [Function.comp_apply]
  congr 1
  omega

/-- While the guard `i < len - 1` holds for all the fuel, the loop appends to `message`
the reference scan of the bytes it walks over, the flag being `value == val`. -/
theorem dedup_loop_eq_scan (data : Nat → Nat) (len : Int) (val : Nat) :
    ∀ (fuel i value : Nat) (message : request_data_type),
      (fuel ≠ 0 → (i : Int) + fuel ≤ len - 1) →
      dedup_loop data len val fuel i value message
        = message ++ reference_scan val (decide (value = val))
            ((List.range fuel).map (fun j => data (i + j))) := by
  intro fuel
  induction fuel with
  | zero =>
    intro i value message _
    simp [dedup_loop, reference_scan]
  | succ n ih =>
    intro i value message h
    have hlen : (i : Int) + ((n + 1 : Nat) : Int) ≤ len - 1 := h (Nat.succ_ne_zero n)
    have hguard : (i : Int) < len - 1 := by omega
    have hnext : n ≠ 0 → ((i + 1 : Nat) : Int) + n ≤ len - 1 := by
      intro _
      push_cast
      push_cast at hlen
      omega
    rw [range_succ_map_shift]
    unfold dedup_loop
    rw [if_pos hguard]
    by_cases hc : data i = val ∧ value = val
    · rw [if_pos hc, ih (i + 1) (bitnot_u8 val) message hnext]
      have hflag : decide (value = val) = true := by simp [hc.2]
      have hnot : decide (bitnot_u8 val = val) = false := by simp [bitnot_u8_ne]
      rw [hflag, hnot]
      simp [reference_scan, hc.1]
    · rw [if_neg hc, ih (i + 1) (data i) (message ++ [data i]) hnext]
      simp [reference_scan, hc]

theorem dedup_eq_scan (data : Nat → Nat) (len : Int) (val : Nat) :
    dedup data len val = reference_scan val false (dedup_window data len) := by
  unfold dedup dedup_window
  rw [dedup_loop_eq_scan]
  · simp [bitnot_u8_ne]
  · intro h
    have : 0 < (len - 6).toNat := Nat.pos_of_ne_zero h
    have h2 : ((len - 6).toNat : Int) = len - 6 := Int.toNat_of_nonneg (by omega)
    omega

/-- Fuel beyond the `len - 6` iterations of the loop changes nothing: the guard stops it. -/
theorem dedup_loop_stop (data : Nat → Nat) (len : Int) (val : Nat) :
    ∀ (fuel i value : Nat) (message : request_data_type),
      len - 1 ≤ (i : Int) → dedup_loop data len val fuel i value message = message := by
  intro fuel i value message h
  cases fuel with
  | zero => rfl
  | succ n =>
    unfold dedup_loop
    rw [if_neg (by omega)]

theorem dedup_loop_fuel (data : Nat → Nat) (len : Int) (val : Nat) :
    ∀ (fuel extra i value : Nat) (message : request_data_type),
      ((i : Int) + fuel = len - 1 ∨ (fuel = 0 ∧ len - 1 ≤ (i : Int))) →
      dedup_loop data len val (fuel + extra) i value message
        = dedup_loop data len val fuel i value message := by
  intro fuel
  induction fuel with
  | zero =>
    intro extra i value message h
    have hi : len - 1 ≤ (i : Int) := by omega
    rw [Nat.zero_add, dedup_loop_stop data len val extra i value message hi]
    rfl
  | succ n ih =>
    intro extra i value message h
    have hlen : (i : Int) + ((n + 1 : Nat) : Int) = len - 1 := by omega
    have hnext : ((i + 1 : Nat) : Int) + n = len - 1 ∨ (n = 0 ∧ len - 1 ≤ ((i + 1 : Nat) : Int)) := by
      left
      push_cast
      push_cast at hlen
      omega
    rw [show n + 1 + extra = (n + extra) + 1 by omega]
    unfold dedup_loop
    by_cases hg : (i : Int) < len - 1
    · rw [if_pos hg, if_pos hg]
      by_cases hc : data i = val ∧ value = val
      · rw [if_pos hc, if_pos hc, ih extra (i + 1) _ _ hnext]
      · rw [if_neg hc, if_neg hc, ih extra (i + 1) _ _ hnext]
    · rw [if_neg hg, if_neg hg]

/-- The fuel `dedup` supplies is enough: with any larger amount the loop returns the same
message. -/
theorem dedup_fuel_enough (data : Nat → Nat) (len : Int) (val : Nat) (extra : Nat) :
    dedup_loop data len val ((len - 6).toNat + extra) 5 (bitnot_u8 val) []
      = dedup data len val := by
  unfold dedup
  apply dedup_loop_fuel
  by_cases h : 6 ≤ len
  · left
    have h2 : ((len - 6).toNat : Int) = len - 6 := Int.toNat_of_nonneg (by omega)
    omega
  · right
    constructor
    · apply Int.toNat_eq_zero.mpr
      omega
    · push_cast
      omega

theorem reference_scan_length_le (M : Nat) :
    ∀ (w : List Nat) (flag : Bool), (reference_scan M flag w).length ≤ w.length := by
  intro w
  induction w with
  | nil => intro flag; simp [reference_scan]
  | cons b rest ih =>
    intro flag
    unfold reference_scan
    split
    · exact Nat.le_succ_of_le (ih false)
    · simpa using ih (decide (b = M))

theorem reference_scan_stuff (M : Nat) :
    ∀ p : List Nat, reference_scan M false (stuff M p) = p := by
  intro p
  induction p with
  | nil => simp [stuff, reference_scan]
  | cons b rest ih =>
    by_cases hb : b = M
    · subst hb
      simp [stuff, reference_scan, ih]
    · simp [stuff, reference_scan, hb, ih]

/-- A run of bytes with no two adjacent `M` passes the scan unchanged, provided the flag
is not raised in front of a leading `M`. -/
theorem reference_scan_id (data : Nat → Nat) (M : Nat) :
    ∀ (n i : Nat) (flag : Bool),
      (∀ j, j + 1 < n → ¬ (data (i + j) = M ∧ data (i + j + 1) = M)) →
      (flag = true → n = 0 ∨ data i ≠ M) →
      reference_scan M flag ((List.range n).map (fun j => data (i + j)))
        = (List.range n).map (fun j => data (i + j)) := by
  intro n
  induction n with
  | zero => intro i flag _ _; simp [reference_scan]
  | succ n ih =>
    intro i flag hadj hflag
    rw [range_succ_map_shift]
    have hcond : ¬ (data i = M ∧ flag = true) := by
      rintro ⟨h1, h2⟩
      rcases hflag h2 with h | h
      · exact Nat.succ_ne_zero n h
      · exact h h1
    have hrest : reference_scan M (decide (data i = M))
        ((List.range n).map (fun j => data (i + 1 + j)))
          = (List.range n).map (fun j => data (i + 1 + j)) := by
      apply ih (i + 1)
      · intro j hj
        have := hadj (j + 1) (by omega)
        rw [show i + (j + 1) = i + 1 + j by omega] at this
        exact this
      · intro hd
        have hd2 : data i = M := by simpa using hd
        by_cases hn : n = 0
        · exact Or.inl hn
        · right
          intro h1
          exact hadj 0 (by omega) ⟨hd2, h1⟩
    unfold reference_scan
    rw [if_neg hcond, hrest]

theorem dedup_window_congr (data other : Nat → Nat) (len : Int)
    (h : ∀ i : Nat, 5 ≤ i → (i : Int) ≤ len - 2 → other i = data i) :
    dedup_window other len = dedup_window data len := by
  unfold dedup_window
  apply List.map_congr_left
  intro j hj
  have hj2 : j < (len - 6).toNat := List.mem_range.mp hj
  apply h
  · omega
  · have h3 : 0 < (len - 6).toNat := by omega
    have h4 : 0 < len - 6 := by
      by_contra hneg
      have : (len - 6).toNat = 0 := Int.toNat_eq_zero.mpr (by omega)
      omega
    have h5 : ((len - 6).toNat : Int) = len - 6 := Int.toNat_of_nonneg (by omega)
    push_cast
    omega

/-- The window of a frame laid out as five header bytes, a body and one trailing byte is
the body. -/
theorem dedup_window_frame (h body : List Nat) (c : Nat) (hh : h.length = 5) :
    dedup_window (frame_mem (h ++ body ++ [c])) ((h ++ body ++ [c]).length : Int) = body := by
  unfold dedup_window frame_mem
  have hn : (((h ++ body ++ [c]).length : Int) - 6).toNat = body.length := by
    simp only [List.length_append, List.length_singleton, hh]
    push_cast
    omega
  rw [hn]
  apply List.ext_getElem
  · simp
  · intro j h1 h2
    have hj : j < body.length := by simpa using h1
    simp only [List.getElem_map, List.getElem_range]
    have hlt : 5 + j < (h ++ body ++ [c]).length := by
      simp only [List.length_append, List.length_singleton, hh]
      omega
    rw [List.getD_eq_getElem _ _ hlt]
    rw [List.getElem_append_left (by simp only [List.length_append, hh]; omega)]
    rw [List.getElem_append_right (by omega)]
    simp [hh]

theorem dedup_head (data : Nat → Nat) (len : Int) (M : Nat) (h : 6 < len) :
    (dedup data len M).head? = some (data 5) := by
  rw [dedup_eq_scan]
  unfold dedup_window
  obtain ⟨n, hn⟩ : ∃ n, (len - 6).toNat = n + 1 := by
    have h5 : ((len - 6).toNat : Int) = len - 6 := Int.toNat_of_nonneg (by omega)
    exact ⟨(len - 6).toNat - 1, by omega⟩
  rw [hn, range_succ_map_shift]
  simp [reference_scan]

/-- C6. Dedup undoes byte stuffing: for every mask byte `M`, payload `p`, five-byte header
`h` and trailing byte `c`, running `dedup` with mask `M` over the frame
`h ++ stuff(p) ++ [c]` (with its own length as `len`) returns `p`, where `stuff` doubles
every occurrence of `M`. -/
theorem dedup_undoes_stuffing (M : Nat) (p h : List Nat) (c : Nat) (hh : h.length = 5) :
    dedup (frame_mem (h ++ stuff M p ++ [c])) ((h ++ stuff M p ++ [c]).length : Int) M = p := by
  rw [dedup_eq_scan, dedup_window_frame h (stuff M p) c hh, reference_scan_stuff]

/-- Witness for C6: the payload `[1, 0x5C, 2]` is stuffed to `[1, 0x5C, 0x5C, 2]` on the
wire and comes out of `dedup` with the single mask byte again. -/
theorem dedup_undoes_stuffing_witness :
    [0x5C, 0x00, 0x20, 0x68, 0x04].length = 5
      ∧ stuff 0x5C [1, 0x5C, 2] = [1, 0x5C, 0x5C, 2]
      ∧ dedup (frame_mem ([0x5C, 0x00, 0x20, 0x68, 0x04] ++ stuff 0x5C [1, 0x5C, 2] ++ [0x77]))
          (([0x5C, 0x00, 0x20, 0x68, 0x04] ++ stuff 0x5C [1, 0x5C, 2] ++ [0x77]).length : Int) 0x5C
        = [1, 0x5C, 2] :=
  ⟨rfl, by decide, dedup_undoes_stuffing 0x5C [1, 0x5C, 2] [0x5C, 0x00, 0x20, 0x68, 0x04] 0x77 rfl⟩

/-- C7. Dedup is the identity on escape-free windows: when no two adjacent bytes at
offsets `5 .. len - 2` both equal `M`, `dedup data len M` is exactly the bytes at offsets
`5 .. len - 2`, in order. (This holds for every `len`; below 6 both sides are empty.) -/
theorem dedup_identity_on_escape_free (data : Nat → Nat) (len : Int) (M : Nat)
    (hfree : ∀ i : Nat, 5 ≤ i → (i : Int) + 1 ≤ len - 2 → ¬ (data i = M ∧ data (i + 1) = M)) :
    dedup data len M = dedup_window data len := by
  rw [dedup_eq_scan]
  unfold dedup_window
  apply reference_scan_id
  · intro j hj
    apply hfree (5 + j) (by omega)
    have h5 : ((len - 6).toNat : Int) = len - 6 := by
      apply Int.toNat_of_nonneg
      by_contra hneg
      have : (len - 6).toNat = 0 := Int.toNat_eq_zero.mpr (by omega)
      omega
    push_cast
    omega
  · intro hf
    exact absurd hf (by simp)

/-- Witness for C7: a ten-byte frame whose window `[1, 0x5C, 2, 0x5C]` holds the mask byte
twice, never doubled. -/
theorem dedup_identity_on_escape_free_witness :
    dedup (frame_mem [0x5C, 0, 0x20, 0x68, 4, 1, 0x5C, 2, 0x5C, 0x77]) 10 0x5C
      = dedup_window (frame_mem [0x5C, 0, 0x20, 0x68, 4, 1, 0x5C, 2, 0x5C, 0x77]) 10
      ∧ dedup_window (frame_mem [0x5C, 0, 0x20, 0x68, 4, 1, 0x5C, 2, 0x5C, 0x77]) 10
        = [1, 0x5C, 2, 0x5C] :=
  ⟨dedup_identity_on_escape_free (frame_mem [0x5C, 0, 0x20, 0x68, 4, 1, 0x5C, 2, 0x5C, 0x77])
      10 0x5C (by
        intro i h1 h2
        have hi : i = 5 ∨ i = 6 ∨ i = 7 := by omega
        rcases hi with rfl | rfl | rfl <;> decide),
    by decide⟩

/-- C8. Dedup never grows its input: the output is no longer than the window of offsets
`5 .. len - 2`; so its length is at most `len - 6` when `len ≥ 6`, and it is empty when
`len ≤ 6`. -/
theorem dedup_never_grows (data : Nat → Nat) (len : Int) (M : Nat) :
    (dedup data len M).length ≤ (dedup_window data len).length
      ∧ (6 ≤ len → ((dedup data len M).length : Int) ≤ len - 6)
      ∧ (len ≤ 6 → (dedup data len M).length = 0) := by
  have hle : (dedup data len M).length ≤ (len - 6).toNat := by
    rw [dedup_eq_scan]
    have := reference_scan_length_le M (dedup_window data len) false
    simpa [dedup_window] using this
  refine ⟨by simpa [dedup_window] using hle, ?_, ?_⟩
  · intro h
    have h5 : ((len - 6).toNat : Int) = len - 6 := Int.toNat_of_nonneg (by omega)
    omega
  · intro h
    have h0 : (len - 6).toNat = 0 := Int.toNat_eq_zero.mpr (by omega)
    omega

/-- Witness for C8: a ten-byte frame gives at most four bytes, a six-byte and a
three-byte frame give none. -/
theorem dedup_never_grows_witness :
    ((dedup (frame_mem [0x5C, 0, 0x20, 0x68, 4, 0x5C, 0x5C, 0x5C, 0x5C, 0x77]) 10 0x5C).length : Int)
        ≤ 10 - 6
      ∧ (dedup (frame_mem [0x5C, 0, 0x20, 0x68, 0, 0x77]) 6 0x5C).length = 0
      ∧ (dedup (frame_mem [0x5C, 0, 0x20]) 3 0x5C).length = 0 :=
  ⟨(dedup_never_grows (frame_mem [0x5C, 0, 0x20, 0x68, 4, 0x5C, 0x5C, 0x5C, 0x5C, 0x77]) 10 0x5C).2.1
      (by decide),
    (dedup_never_grows (frame_mem [0x5C, 0, 0x20, 0x68, 0, 0x77]) 6 0x5C).2.2 (by decide),
    (dedup_never_grows (frame_mem [0x5C, 0, 0x20]) 3 0x5C).2.2 (by decide)⟩

/-- C9. Dedup equals the reference scan of spec 4.1 run, flag lowered, over exactly the
bytes at offsets `5 .. len - 2`; any memory that agrees with `data` on those offsets
gives the same output (nothing outside the window is read or matters); and when the
window is non-empty the byte at offset 5 is always the first byte emitted, whatever
precedes it. -/
theorem dedup_refines_reference_scan (data : Nat → Nat) (len : Int) (M : Nat) :
    dedup data len M = reference_scan M false (dedup_window data len)
      ∧ (∀ other : Nat → Nat,
          (∀ i : Nat, 5 ≤ i → (i : Int) ≤ len - 2 → other i = data i) →
          dedup other len M = dedup data len M)
      ∧ (6 < len → (dedup data len M).head? = some (data 5)) := by
  refine ⟨dedup_eq_scan data len M, ?_, dedup_head data len M⟩
  intro other h
  rw [dedup_eq_scan, dedup_eq_scan, dedup_window_congr data other len h]

/-- Witness for C9: two eight-byte frames that differ at offsets 4 (a mask byte in one of
them) and 7 (the last byte) and agree on the window `[0x5C, 1]` give the same output,
which starts with the byte at offset 5. -/
theorem dedup_refines_reference_scan_witness :
    dedup (frame_mem [0x5C, 0, 0x20, 0x68, 0x5C, 0x5C, 1, 9]) 8 0x5C
        = dedup (frame_mem [0x5C, 0, 0x20, 0x68, 2, 0x5C, 1, 7]) 8 0x5C
      ∧ (dedup (frame_mem [0x5C, 0, 0x20, 0x68, 2, 0x5C, 1, 7]) 8 0x5C).head?
        = some (frame_mem [0x5C, 0, 0x20, 0x68, 2, 0x5C, 1, 7] 5) :=
  ⟨(dedup_refines_reference_scan (frame_mem [0x5C, 0, 0x20, 0x68, 2, 0x5C, 1, 7]) 8 0x5C).2.1
      (frame_mem [0x5C, 0, 0x20, 0x68, 0x5C, 0x5C, 1, 9]) (by
        intro i h1 h2
        have hi : i = 5 ∨ i = 6 := by omega
        rcases hi with rfl | rfl <;> decide),
    (dedup_refines_reference_scan (frame_mem [0x5C, 0, 0x20, 0x68, 2, 0x5C, 1, 7]) 8 0x5C).2.2
      (by decide)⟩

/-! ## The token dispatcher -/

theorem copy_request_len (MAX_DATA_LEN : Nat) (request : request_data_type) (data : List Nat) :
    (copy_request MAX_DATA_LEN request data).1 = min request.length MAX_DATA_LEN := rfl

theorem copy_request_data (MAX_DATA_LEN : Nat) (request : request_data_type) (data : List Nat) :
    (copy_request MAX_DATA_LEN request data).2
      = request.take (min request.length MAX_DATA_LEN)
          ++ data.drop (min request.length MAX_DATA_LEN) := rfl

theorem copy_request_fits (MAX_DATA_LEN : Nat) (request : request_data_type) (data : List Nat)
    (h : request.length ≤ MAX_DATA_LEN) :
    copy_request MAX_DATA_LEN request data = (request.length, request ++ data.drop request.length) := by
  unfold copy_request
  simp [Nat.min_eq_left h]

/-- The queue branch: a non-empty queue answers, is popped, and nothing else changes. -/
theorem token_from_queue {Env : Type} (MAX_DATA_LEN : Nat) (self : NibeGwComponent Env)
    (address command : Nat) (data : List Nat) (env : Env)
    (front : request_data_type) (rest : List request_data_type)
    (hq : self.requests_ (address, command) = some (front :: rest)) :
    callback_msg_token_received MAX_DATA_LEN self address command data env
      = ⟨(copy_request MAX_DATA_LEN front data).1, (copy_request MAX_DATA_LEN front data).2,
          { self with
            requests_ := Function.update self.requests_ (address, command) (some rest) },
          env⟩ := by
  unfold callback_msg_token_received
  simp only [hq]

/-- The provider branch: with the queue absent or empty, a registered provider answers
and the component is left as it was. -/
theorem token_from_provider {Env : Type} (MAX_DATA_LEN : Nat) (self : NibeGwComponent Env)
    (address command : Nat) (data : List Nat) (env : Env)
    (provider : Env → request_data_type × Env)
    (hq : self.requests_ (address, command) = none ∨ self.requests_ (address, command) = some [])
    (hp : self.requests_provider_ (address, command) = some provider) :
    callback_msg_token_received MAX_DATA_LEN self address command data env
      = ⟨(copy_request MAX_DATA_LEN (provider env).1 data).1,
          (copy_request MAX_DATA_LEN (provider env).1 data).2, self, (provider env).2⟩ := by
  unfold callback_msg_token_received
  rcases hq with hq | hq <;> simp only [hq, hp]

/-- The miss branch: with the queue absent or empty and no provider, the call returns 0
and touches nothing. -/
theorem token_miss {Env : Type} (MAX_DATA_LEN : Nat) (self : NibeGwComponent Env)
    (address command : Nat) (data : List Nat) (env : Env)
    (hq : self.requests_ (address, command) = none ∨ self.requests_ (address, command) = some [])
    (hp : self.requests_provider_ (address, command) = none) :
    callback_msg_token_received MAX_DATA_LEN self address command data env
      = ⟨0, data, self, env⟩ := by
  unfold callback_msg_token_received
  rcases hq with hq | hq <;> simp only [hq, hp]

/-- The queue of a key is absent, empty, or has a front. -/
theorem queue_cases {Env : Type} (self : NibeGwComponent Env) (key : request_key_type) :
    (self.requests_ key = none ∨ self.requests_ key = some [])
      ∨ ∃ front rest, self.requests_ key = some (front :: rest) := by
  cases h : self.requests_ key with
  | none => exact Or.inl (Or.inl rfl)
  | some queue =>
    cases queue with
    | nil => exact Or.inl (Or.inr rfl)
    | cons front rest => exact Or.inr ⟨front, rest, rfl⟩

theorem token_len_le {Env : Type} (MAX_DATA_LEN : Nat) (self : NibeGwComponent Env)
    (address command : Nat) (data : List Nat) (env : Env) :
    (callback_msg_token_received MAX_DATA_LEN self address command data env).len
      ≤ MAX_DATA_LEN := by
  rcases queue_cases self (address, command) with hq | ⟨front, rest, hq⟩
  · cases hp : self.requests_provider_ (address, command) with
    | none =>
      rw [token_miss MAX_DATA_LEN self address command data env hq hp]
      exact Nat.zero_le _
    | some provider =>
      rw [token_from_provider MAX_DATA_LEN self address command data env provider hq hp]
      exact Nat.min_le_right _ _
  · rw [token_from_queue MAX_DATA_LEN self address command data env front rest hq]
    exact Nat.min_le_right _ _

/-- C2. Queue first, provider second. For every component, key, buffer and callables'
state: (1) when the key's queue exists and is non-empty the call answers with a copy of
its front, pops it, and leaves the callables' state alone (no provider runs); (2) when
the queue is absent or empty and a provider is registered the call answers with a copy of
the provider's output; (3) with neither, it returns 0; (4) after the call that drains the
last queued payload, the next call for the key is answered by the provider. -/
theorem queue_first_provider_second {Env : Type} (MAX_DATA_LEN : Nat)
    (self : NibeGwComponent Env) (address command : Nat) (data : List Nat) (env : Env) :
    (∀ (front : request_data_type) (rest : List request_data_type),
        self.requests_ (address, command) = some (front :: rest) →
        callback_msg_token_received MAX_DATA_LEN self address command data env
          = ⟨(copy_request MAX_DATA_LEN front data).1, (copy_request MAX_DATA_LEN front data).2,
              { self with
                requests_ := Function.update self.requests_ (address, command) (some rest) },
              env⟩)
      ∧ (∀ provider : Env → request_data_type × Env,
          (self.requests_ (address, command) = none
            ∨ self.requests_ (address, command) = some []) →
          self.requests_provider_ (address, command) = some provider →
          callback_msg_token_received MAX_DATA_LEN self address command data env
            = ⟨(copy_request MAX_DATA_LEN (provider env).1 data).1,
                (copy_request MAX_DATA_LEN (provider env).1 data).2, self, (provider env).2⟩)
      ∧ ((self.requests_ (address, command) = none
            ∨ self.requests_ (address, command) = some []) →
          self.requests_provider_ (address, command) = none →
          callback_msg_token_received MAX_DATA_LEN self address command data env
            = ⟨0, data, self, env⟩)
      ∧ (∀ (front : request_data_type) (provider : Env → request_data_type × Env)
          (next : List Nat),
          self.requests_ (address, command) = some [front] →
          self.requests_provider_ (address, command) = some provider →
          callback_msg_token_received MAX_DATA_LEN
              (callback_msg_token_received MAX_DATA_LEN self address command data env).self
              address command next
              (callback_msg_token_received MAX_DATA_LEN self address command data env).env
            = ⟨(copy_request MAX_DATA_LEN (provider env).1 next).1,
                (copy_request MAX_DATA_LEN (provider env).1 next).2,
                (callback_msg_token_received MAX_DATA_LEN self address command data env).self,
                (provider env).2⟩) := by
  refine ⟨?_, ?_, ?_, ?_⟩
  · intro front rest hq
    exact token_from_queue MAX_DATA_LEN self address command data env front rest hq
  · intro provider hq hp
    exact token_from_provider MAX_DATA_LEN self address command data env provider hq hp
  · intro hq hp
    exact token_miss MAX_DATA_LEN self address command data env hq hp
  · intro front provider next hq hp
    rw [token_from_queue MAX_DATA_LEN self address command data env front [] hq]
    apply token_from_provider
    · right
      simp
    · exact hp

/-- Witness for C2: with `[1, 2, 3]` queued and a counting provider under the same key,
the first call returns 3 without running the provider and the second returns the
provider's single byte. -/
theorem queue_first_provider_second_witness :
    (callback_msg_token_received 128 queued_example 0x0020 0x06 buffer_example 0).len = 3
      ∧ (callback_msg_token_received 128 queued_example 0x0020 0x06 buffer_example 0).data
          = [1, 2, 3, 0, 0, 0, 0, 0]
      ∧ (callback_msg_token_received 128 queued_example 0x0020 0x06 buffer_example 0).env = 0
      ∧ (callback_msg_token_received 128
          (callback_msg_token_received 128 queued_example 0x0020 0x06 buffer_example 0).self
          0x0020 0x06 buffer_example
          (callback_msg_token_received 128 queued_example 0x0020 0x06 buffer_example 0).env).len
          = 1
      ∧ (callback_msg_token_received 128
          (callback_msg_token_received 128 queued_example 0x0020 0x06 buffer_example 0).self
          0x0020 0x06 buffer_example
          (callback_msg_token_received 128 queued_example 0x0020 0x06 buffer_example 0).env).env
          = 1 := by
  have h1 := (queue_first_provider_second 128 queued_example 0x0020 0x06 buffer_example 0).1
    [1, 2, 3] [] rfl
  have h4 := (queue_first_provider_second 128 queued_example 0x0020 0x06 buffer_example 0).2.2.2
    [1, 2, 3] (fun n => ([0xAA], n + 1)) buffer_example rfl rfl
  rw [h4, h1]
  exact ⟨rfl, rfl, rfl, rfl, rfl⟩

/-- C3. Truncation, not error. The returned length never exceeds `MAX_DATA_LEN`. When the
call answers with a payload `p` (the front of the key's non-empty queue, or else the
output of the key's provider), the returned length is `min |p| MAX_DATA_LEN` and the
buffer holds that many leading bytes of `p` followed by its old contents; if `p` is
longer than `MAX_DATA_LEN` that is `MAX_DATA_LEN` bytes, otherwise all of `p`. -/
theorem truncation_not_error {Env : Type} (MAX_DATA_LEN : Nat)
    (self : NibeGwComponent Env) (address command : Nat) (data : List Nat) (env : Env) :
    (callback_msg_token_received MAX_DATA_LEN self address command data env).len ≤ MAX_DATA_LEN
      ∧ ∀ p : request_data_type,
          ((∃ rest, self.requests_ (address, command) = some (p :: rest))
            ∨ ((self.requests_ (address, command) = none
                  ∨ self.requests_ (address, command) = some [])
                ∧ ∃ provider, self.requests_provider_ (address, command) = some provider
                    ∧ (provider env).1 = p)) →
          (callback_msg_token_received MAX_DATA_LEN self address command data env).len
              = min p.length MAX_DATA_LEN
            ∧ (callback_msg_token_received MAX_DATA_LEN self address command data env).data
              = p.take (min p.length MAX_DATA_LEN) ++ data.drop (min p.length MAX_DATA_LEN)
            ∧ (MAX_DATA_LEN < p.length →
                (callback_msg_token_received MAX_DATA_LEN self address command data env).len
                    = MAX_DATA_LEN
                  ∧ (callback_msg_token_received MAX_DATA_LEN self address command data env).data
                    = p.take MAX_DATA_LEN ++ data.drop MAX_DATA_LEN)
            ∧ (p.length ≤ MAX_DATA_LEN →
                (callback_msg_token_received MAX_DATA_LEN self address command data env).len
                    = p.length
                  ∧ (callback_msg_token_received MAX_DATA_LEN self address command data env).data
                    = p ++ data.drop p.length) := by
  have key : ∀ p : request_data_type,
      ((∃ rest, self.requests_ (address, command) = some (p :: rest))
        ∨ ((self.requests_ (address, command) = none
              ∨ self.requests_ (address, command) = some [])
            ∧ ∃ provider, self.requests_provider_ (address, command) = some provider
                ∧ (provider env).1 = p)) →
      (callback_msg_token_received MAX_DATA_LEN self address command data env).len
          = min p.length MAX_DATA_LEN
        ∧ (callback_msg_token_received MAX_DATA_LEN self address command data env).data
          = p.take (min p.length MAX_DATA_LEN) ++ data.drop (min p.length MAX_DATA_LEN) := by
    intro p hp
    rcases hp with ⟨rest, hq⟩ | ⟨hq, provider, hprov, hout⟩
    · rw [token_from_queue MAX_DATA_LEN self address command data env p rest hq]
      exact ⟨rfl, rfl⟩
    · rw [token_from_provider MAX_DATA_LEN self address command data env provider hq hprov, hout]
      exact ⟨rfl, rfl⟩
  refine ⟨?_, ?_⟩
  · exact token_len_le MAX_DATA_LEN self address command data env
  · intro p hp
    obtain ⟨hlen, hdata⟩ := key p hp
    refine ⟨hlen, hdata, ?_, ?_⟩
    · intro hlong
      rw [hlen, hdata, Nat.min_eq_right (Nat.le_of_lt hlong)]
      exact ⟨rfl, rfl⟩
    · intro hshort
      rw [hlen, hdata, Nat.min_eq_left hshort, List.take_length]
      exact ⟨rfl, rfl⟩

/-- Witness for C3: a queued payload of 130 bytes with `MAX_DATA_LEN = 128` returns 128 and
writes the first 128 bytes. -/
theorem truncation_not_error_witness :
    (callback_msg_token_received 128 oversize_example 0x0020 0x06 (List.replicate 128 0) 0).len
        = 128
      ∧ (callback_msg_token_received 128 oversize_example 0x0020 0x06
          (List.replicate 128 0) 0).data
        = (List.replicate 130 7).take 128 ++ (List.replicate 128 0).drop 128 :=
  ((truncation_not_error 128 oversize_example 0x0020 0x06 (List.replicate 128 0) 0).2
      (List.replicate 130 7) (Or.inl ⟨[], rfl⟩)).2.2.1 (by simp)

/-- C5. Lookup miss is not an error: when the key has no provider and its queue is absent
or empty, the call returns 0, leaves the output buffer as it was, leaves the component
(queue map and provider map included) and the callables' state as they were, and an
absent queue stays absent. -/
theorem lookup_miss {Env : Type} (MAX_DATA_LEN : Nat)
    (self : NibeGwComponent Env) (address command : Nat) (data : List Nat) (env : Env)
    (hq : self.requests_ (address, command) = none
      ∨ self.requests_ (address, command) = some [])
    (hp : self.requests_provider_ (address, command) = none) :
    (callback_msg_token_received MAX_DATA_LEN self address command data env).len = 0
      ∧ (callback_msg_token_received MAX_DATA_LEN self address command data env).data = data
      ∧ (callback_msg_token_received MAX_DATA_LEN self address command data env).self = self
      ∧ (callback_msg_token_received MAX_DATA_LEN self address command data env).env = env
      ∧ (self.requests_ (address, command) = none →
          (callback_msg_token_received MAX_DATA_LEN self address command data env).self.requests_
            (address, command) = none) := by
  rw [token_miss MAX_DATA_LEN self address command data env hq hp]
  exact ⟨rfl, rfl, rfl, rfl, fun h => h⟩

/-- Witness for C5: a request for the unknown key `(0x0030, 0x01)` on a component that
holds data for another key only. -/
theorem lookup_miss_witness :
    (callback_msg_token_received 128 queued_example 0x0030 0x01 buffer_example 0).len = 0
      ∧ (callback_msg_token_received 128 queued_example 0x0030 0x01 buffer_example 0).data
        = buffer_example
      ∧ (callback_msg_token_received 128 queued_example 0x0030 0x01 buffer_example 0).self
        = queued_example
      ∧ (callback_msg_token_received 128 queued_example 0x0030 0x01 buffer_example 0).env = 0
      ∧ (queued_example.requests_ (0x0030, 0x01) = none →
          (callback_msg_token_received 128 queued_example 0x0030 0x01 buffer_example 0).self.requests_
            (0x0030, 0x01) = none) :=
  lookup_miss 128 queued_example 0x0030 0x01 buffer_example 0 (Or.inl rfl) rfl

/-- Repeated requests answered by a provider: request number `i` gets the provider's
output in the callables' state left by the `i` invocations before it, and the component
it leaves is the one it found. -/
theorem token_requests_provider {Env : Type} (MAX_DATA_LEN : Nat) (self : NibeGwComponent Env)
    (address command : Nat) (provider : Env → request_data_type × Env)
    (hq : self.requests_ (address, command) = none
      ∨ self.requests_ (address, command) = some [])
    (hp : self.requests_provider_ (address, command) = some provider) :
    ∀ (bufs : List (List Nat)) (env : Env) (i : Nat) (data : List Nat),
      bufs[i]? = some data →
      (token_requests MAX_DATA_LEN self address command bufs env)[i]?
        = some ⟨(copy_request MAX_DATA_LEN
                  (provider ((fun e => (provider e).2)^[i] env)).1 data).1,
                (copy_request MAX_DATA_LEN
                  (provider ((fun e => (provider e).2)^[i] env)).1 data).2,
                self, (provider ((fun e => (provider e).2)^[i] env)).2⟩ := by
  intro bufs
  induction bufs with
  | nil => intro env i data h; simp at h
  | cons first rest ih =>
    intro env i data h
    unfold token_requests
    simp only [token_from_provider MAX_DATA_LEN self address command first env provider hq hp]
    cases i with
    | zero =>
      simp only [List.getElem?_cons_zero, Option.some.injEq] at h
      subst h
      simp
    | succ j =>
      simp only [List.getElem?_cons_succ] at h
      simp only [List.getElem?_cons_succ, Function.iterate_succ, Function.comp_apply]
      exact ih (provider env).2 j data h

theorem token_requests_length {Env : Type} (MAX_DATA_LEN : Nat) (address command : Nat) :
    ∀ (bufs : List (List Nat)) (self : NibeGwComponent Env) (env : Env),
      (token_requests MAX_DATA_LEN self address command bufs env).length = bufs.length := by
  intro bufs
  induction bufs with
  | nil => intro self env; rfl
  | cons first rest ih =>
    intro self env
    unfold token_requests
    simp [ih]

/-- C4. Providers are never depleted: for a key with a registered provider and its queue
absent or empty, any number of consecutive token requests (one per buffer in `bufs`) each
return the provider's output at the time of that request, copied with truncation to
`MAX_DATA_LEN`, and each leaves the component, so its queue map and provider map, exactly
as it was before the first request. -/
theorem providers_never_depleted {Env : Type} (MAX_DATA_LEN : Nat) (self : NibeGwComponent Env)
    (address command : Nat) (provider : Env → request_data_type × Env)
    (bufs : List (List Nat)) (env : Env)
    (hq : self.requests_ (address, command) = none
      ∨ self.requests_ (address, command) = some [])
    (hp : self.requests_provider_ (address, command) = some provider) :
    (token_requests MAX_DATA_LEN self address command bufs env).length = bufs.length
      ∧ (∀ (i : Nat) (data : List Nat), bufs[i]? = some data →
          (token_requests MAX_DATA_LEN self address command bufs env)[i]?
            = some ⟨(copy_request MAX_DATA_LEN
                      (provider ((fun e => (provider e).2)^[i] env)).1 data).1,
                    (copy_request MAX_DATA_LEN
                      (provider ((fun e => (provider e).2)^[i] env)).1 data).2,
                    self, (provider ((fun e => (provider e).2)^[i] env)).2⟩)
      ∧ (∀ r ∈ token_requests MAX_DATA_LEN self address command bufs env,
          r.self.requests_ = self.requests_
            ∧ r.self.requests_provider_ = self.requests_provider_) := by
  have hlen := token_requests_length MAX_DATA_LEN address command bufs self env
  have hget := token_requests_provider MAX_DATA_LEN self address command provider hq hp bufs env
  refine ⟨hlen, hget, ?_⟩
  intro r hr
  obtain ⟨i, hi, hri⟩ := List.getElem_of_mem hr
  have hib : i < bufs.length := by omega
  have h1 := hget i bufs[i] (List.getElem?_eq_getElem hib)
  rw [List.getElem?_eq_getElem hi, hri] at h1
  have h2 : r = _ := Option.some.inj h1
  rw [h2]
  exact ⟨rfl, rfl⟩

/-- Witness for C4: three consecutive requests for `(0x0016, 0x00)`, whose provider returns
`[0xAA]`; the third still returns length 1 and the byte `0xAA`, after two earlier
invocations, with the component unchanged. -/
theorem providers_never_depleted_witness :
    (token_requests 128 provider_example 0x0016 0x00
        [buffer_example, buffer_example, buffer_example] 0)[2]?
      = some ⟨1, [0xAA, 0, 0, 0, 0, 0, 0, 0], provider_example, 3⟩ :=
  (providers_never_depleted 128 provider_example 0x0016 0x00 (fun n => ([0xAA], n + 1))
    [buffer_example, buffer_example, buffer_example] 0 (Or.inl rfl) rfl).2.1 2 buffer_example rfl

/-- Enqueueing a list of payloads under one key appends them, in order, to what the key's
queue held, and leaves the provider map alone. -/
theorem enqueue_all {Env : Type} (address command : Nat) :
    ∀ (ps : List request_data_type) (self : NibeGwComponent Env),
      ((ps.foldl (fun s p => add_queued_request s address command p) self).requests_
          (address, command)).getD []
          = (self.requests_ (address, command)).getD [] ++ ps
        ∧ (ps.foldl (fun s p => add_queued_request s address command p) self).requests_provider_
          = self.requests_provider_ := by
  intro ps
  induction ps with
  | nil => intro self; simp
  | cons p rest ih =>
    intro self
    obtain ⟨h1, h2⟩ := ih (add_queued_request self address command p)
    simp only [List.foldl_cons]
    rw [h1, h2]
    simp [add_queued_request]

/-- Draining a queue: while the key's queue holds `ps`, all short enough, the next
`|ps|` requests return them in order, no provider runs, and the requests after those
meet a component whose queue for the key is empty and whose provider map is unchanged. -/
theorem token_requests_drain {Env : Type} (MAX_DATA_LEN : Nat) (address command : Nat)
    (more : List (List Nat)) (env : Env) :
    ∀ (ps : List request_data_type) (self : NibeGwComponent Env) (bufs : List (List Nat)),
      (self.requests_ (address, command)).getD [] = ps →
      (∀ p ∈ ps, p.length ≤ MAX_DATA_LEN) →
      bufs.length = ps.length →
      ∃ after : NibeGwComponent Env,
        (after.requests_ (address, command) = none
            ∨ after.requests_ (address, command) = some [])
          ∧ after.requests_provider_ = self.requests_provider_
          ∧ (token_requests MAX_DATA_LEN self address command (bufs ++ more) env).map
              (fun r => (r.len, r.data, r.env))
            = List.zipWith (fun p d => (p.length, p ++ d.drop p.length, env)) ps bufs
                ++ (token_requests MAX_DATA_LEN after address command more env).map
                    (fun r => (r.len, r.data, r.env)) := by
  intro ps
  induction ps with
  | nil =>
    intro self bufs hq _ hb
    have hb0 : bufs = [] := List.length_eq_zero.mp hb
    subst hb0
    refine ⟨self, ?_, rfl, by simp⟩
    rcases queue_cases self (address, command) with h | ⟨front, rest, h⟩
    · exact h
    · rw [h] at hq
      simp at hq
  | cons p rest ih =>
    intro self bufs hq hlen hb
    cases bufs with
    | nil => simp at hb
    | cons d bufs =>
      have hsome : self.requests_ (address, command) = some (p :: rest) := by
        cases h : self.requests_ (address, command) with
        | none => rw [h] at hq; simp at hq
        | some queue => rw [h] at hq; simpa using hq
      have hstep := token_from_queue MAX_DATA_LEN self address command d env p rest hsome
      have hp : p.length ≤ MAX_DATA_LEN := hlen p (List.mem_cons_self p rest)
      obtain ⟨after, ha1, ha2, ha3⟩ :=
        ih { self with
              requests_ := Function.update self.requests_ (address, command) (some rest) }
          bufs (by simp) (fun q hq2 => hlen q (List.mem_cons_of_mem p hq2))
          (by simpa using hb)
      refine ⟨after, ha1, ha2, ?_⟩
      simp only [List.cons_append, token_requests, hstep, List.map_cons, List.zipWith_cons_cons,
        copy_request_fits MAX_DATA_LEN p d hp]
      exact congrArg (List.cons (p.length, p ++ d.drop p.length, env)) ha3

/-- C1. FIFO delivery. Enqueue payloads `ps`, each of length at most `MAX_DATA_LEN`, in
order under a key whose queue is absent or empty; then the next `|ps|` token requests for
the key (one per buffer in `bufs`) return the lengths of the payloads and write the
payloads, in enqueue order and without running a provider; and if the key has no provider
the request after those returns 0 and leaves its buffer as it was. -/
theorem fifo_delivery {Env : Type} (MAX_DATA_LEN : Nat) (self : NibeGwComponent Env)
    (address command : Nat) (ps : List request_data_type) (bufs : List (List Nat))
    (extra : List Nat) (env : Env)
    (hempty : self.requests_ (address, command) = none
      ∨ self.requests_ (address, command) = some [])
    (hlen : ∀ p ∈ ps, p.length ≤ MAX_DATA_LEN)
    (hbufs : bufs.length = ps.length) :
    (token_requests MAX_DATA_LEN
          (ps.foldl (fun s p => add_queued_request s address command p) self)
          address command bufs env).map (fun r => (r.len, r.data, r.env))
        = List.zipWith (fun p d => (p.length, p ++ d.drop p.length, env)) ps bufs
      ∧ (self.requests_provider_ (address, command) = none →
          (token_requests MAX_DATA_LEN
              (ps.foldl (fun s p => add_queued_request s address command p) self)
              address command (bufs ++ [extra]) env).map (fun r => (r.len, r.data, r.env))
            = List.zipWith (fun p d => (p.length, p ++ d.drop p.length, env)) ps bufs
                ++ [(0, extra, env)]) := by
  obtain ⟨hq, hprov⟩ := enqueue_all address command ps self
  have hq2 : ((ps.foldl (fun s p => add_queued_request s address command p) self).requests_
      (address, command)).getD [] = ps := by
    rw [hq]
    rcases hempty with h | h <;> simp [h]
  constructor
  · obtain ⟨after, _, _, h3⟩ := token_requests_drain MAX_DATA_LEN address command [] env ps
      (ps.foldl (fun s p => add_queued_request s address command p) self) bufs hq2 hlen hbufs
    simpa [token_requests] using h3
  · intro hnone
    obtain ⟨after, h1, h2, h3⟩ := token_requests_drain MAX_DATA_LEN address command [extra] env ps
      (ps.foldl (fun s p => add_queued_request s address command p) self) bufs hq2 hlen hbufs
    rw [h3]
    have hp : after.requests_provider_ (address, command) = none := by
      rw [h2, hprov, hnone]
    simp [token_requests, token_miss MAX_DATA_LEN after address command extra env h1 hp]

/-- Witness for C1: enqueue `[1, 2, 3]` at `(0x0020, 0x06)` on a fresh component; the first
request returns 3 with the buffer starting `[1, 2, 3]`, the second returns 0. -/
theorem fifo_delivery_witness :
    (token_requests 128
        ([[1, 2, 3]].foldl (fun s p => add_queued_request s 0x0020 0x06 p)
          (NibeGwComponent.fresh Nat))
        0x0020 0x06 ([buffer_example] ++ [buffer_example]) 0).map
          (fun r => (r.len, r.data, r.env))
      = [(3, [1, 2, 3, 0, 0, 0, 0, 0], 0), (0, [0, 0, 0, 0, 0, 0, 0, 0], 0)] :=
  (fifo_delivery 128 (NibeGwComponent.fresh Nat) 0x0020 0x06 [[1, 2, 3]] [buffer_example]
    buffer_example 0 (Or.inl rfl) (by decide) rfl).2 rfl

/-! ## The UDP intake -/

theorem is_source_ip_allowed_iff {Env : Type} (self : NibeGwComponent Env) (ip : IPAddress) :
    is_source_ip_allowed self ip = true
      ↔ self.udp_source_ip_ = [] ∨ ip ∈ self.udp_source_ip_ := by
  unfold is_source_ip_allowed
  cases h : self.udp_source_ip_ with
  | nil => simp
  | cons a rest => simp

/-- C10. Source allow-list. `is_source_ip_allowed(ip)` is true exactly when the configured
source list is empty or contains `ip`; a datagram whose source is not in a non-empty
allow-list leaves the whole component, the request queues included, as it was; and with
an empty allow-list a datagram of admissible size arriving while connected reaches
`add_queued_request` whatever its source. -/
theorem source_allow_list {Env : Type} (MAX_DATA_LEN : Nat) (self : NibeGwComponent Env)
    (data : Nat → Nat) (len : Int) (from_ip : IPAddress) (address token : Nat) :
    (is_source_ip_allowed self from_ip = true
        ↔ self.udp_source_ip_ = [] ∨ from_ip ∈ self.udp_source_ip_)
      ∧ (self.udp_source_ip_ ≠ [] → from_ip ∉ self.udp_source_ip_ →
          handle_udp_packet MAX_DATA_LEN self data len from_ip address token = self)
      ∧ (self.udp_source_ip_ = [] → self.is_connected_ = true →
          0 < len → len ≤ (MAX_DATA_LEN : Int) →
          handle_udp_packet MAX_DATA_LEN self data len from_ip address token
            = add_queued_request self address token ((List.range len.toNat).map data)) := by
  refine ⟨is_source_ip_allowed_iff self from_ip, ?_, ?_⟩
  · intro hne hnot
    have hno : is_source_ip_allowed self from_ip = false := by
      cases h : is_source_ip_allowed self from_ip with
      | false => rfl
      | true =>
        rcases (is_source_ip_allowed_iff self from_ip).mp h with h1 | h1
        · exact absurd h1 hne
        · exact absurd h1 hnot
    unfold handle_udp_packet
    simp [hno]
  · intro hempty hconn hpos hmax
    have hyes : is_source_ip_allowed self from_ip = true :=
      (is_source_ip_allowed_iff self from_ip).mpr (Or.inl hempty)
    unfold handle_udp_packet
    have h0 : ¬ len = 0 := by omega
    have h1 : ¬ len > (MAX_DATA_LEN : Int) := by omega
    simp [hconn, h0, h1, hyes]

/-- Witness for C10: a three-byte datagram from `192.168.0.2` is dropped by a component
that admits `192.168.0.1` only, and reaches the queue of a component whose allow-list is
empty. -/
theorem source_allow_list_witness :
    handle_udp_packet 128 guarded_example (frame_mem [1, 2, 3]) 3 0xC0A80002 0x20 0x69
        = guarded_example
      ∧ handle_udp_packet 128 open_example (frame_mem [1, 2, 3]) 3 0xC0A80002 0x20 0x69
        = add_queued_request open_example 0x20 0x69
            ((List.range (3 : Int).toNat).map (frame_mem [1, 2, 3])) :=
  ⟨(source_allow_list 128 guarded_example (frame_mem [1, 2, 3]) 3 0xC0A80002 0x20 0x69).2.1
      (by decide) (by decide),
    (source_allow_list 128 open_example (frame_mem [1, 2, 3]) 3 0xC0A80002 0x20 0x69).2.2
      rfl rfl (by decide) (by decide)⟩

/-- A datagram that passes every test of `handle_udp_packet` is handed to
`add_queued_request`. -/
theorem handle_udp_packet_accept {Env : Type} (MAX_DATA_LEN : Nat) (self : NibeGwComponent Env)
    (data : Nat → Nat) (len : Int) (from_ip : IPAddress) (address token : Nat)
    (hconn : self.is_connected_ = true) (hpos : 0 < len) (hmax : len ≤ (MAX_DATA_LEN : Int))
    (hsrc : is_source_ip_allowed self from_ip = true) :
    handle_udp_packet MAX_DATA_LEN self data len from_ip address token
      = add_queued_request self address token ((List.range len.toNat).map data) := by
  unfold handle_udp_packet
  have h0 : ¬ len = 0 := by omega
  have h1 : ¬ len > (MAX_DATA_LEN : Int) := by omega
  simp [hconn, h0, h1, hsrc]

/-- A datagram of length 0 or above `MAX_DATA_LEN` leaves the component as it was. -/
theorem handle_udp_packet_size {Env : Type} (MAX_DATA_LEN : Nat) (self : NibeGwComponent Env)
    (data : Nat → Nat) (len : Int) (from_ip : IPAddress) (address token : Nat)
    (hsize : len = 0 ∨ len > (MAX_DATA_LEN : Int)) :
    handle_udp_packet MAX_DATA_LEN self data len from_ip address token = self := by
  unfold handle_udp_packet
  rcases hsize with h | h
  · simp [h]
  · by_cases h0 : len = 0
    · simp [h0]
    · simp [h0, h]

/-- C11. Size validation: a datagram whose length is 0 or greater than `MAX_DATA_LEN`
leaves the component exactly as it was (request queues, provider map and listener map
included), whatever the source, address and token, and the call returns normally (the
function is total and has no result but the component); a datagram of length exactly
`MAX_DATA_LEN` that passes the other tests is handed to `add_queued_request`. -/
theorem size_validation {Env : Type} (MAX_DATA_LEN : Nat) (self : NibeGwComponent Env)
    (data : Nat → Nat) (len : Int) (from_ip : IPAddress) (address token : Nat) :
    ((len = 0 ∨ len > (MAX_DATA_LEN : Int)) →
        handle_udp_packet MAX_DATA_LEN self data len from_ip address token = self
          ∧ (handle_udp_packet MAX_DATA_LEN self data len from_ip address token).requests_
              = self.requests_
          ∧ (handle_udp_packet MAX_DATA_LEN self data len from_ip address token).requests_provider_
              = self.requests_provider_
          ∧ (handle_udp_packet MAX_DATA_LEN self data len from_ip address token).message_listener_
              = self.message_listener_)
      ∧ (len = (MAX_DATA_LEN : Int) → 0 < MAX_DATA_LEN → self.is_connected_ = true →
          is_source_ip_allowed self from_ip = true →
          handle_udp_packet MAX_DATA_LEN self data len from_ip address token
            = add_queued_request self address token ((List.range MAX_DATA_LEN).map data)) := by
  constructor
  · intro hsize
    rw [handle_udp_packet_size MAX_DATA_LEN self data len from_ip address token hsize]
    exact ⟨rfl, rfl, rfl, rfl⟩
  · intro hlen hpos hconn hsrc
    rw [handle_udp_packet_accept MAX_DATA_LEN self data len from_ip address token hconn
      (by omega) (by omega) hsrc, hlen]
    simp

/-- Witness for C11: with `MAX_DATA_LEN = 128`, datagrams of length 0 and 129 leave a
connected component with an empty allow-list as it was, and one of length 128 is
enqueued. -/
theorem size_validation_witness :
    handle_udp_packet 128 open_example (frame_mem [1, 2, 3]) 0 0xC0A80002 0x20 0x69
        = open_example
      ∧ handle_udp_packet 128 open_example (frame_mem [1, 2, 3]) 129 0xC0A80002 0x20 0x69
        = open_example
      ∧ handle_udp_packet 128 open_example (frame_mem [1, 2, 3]) 128 0xC0A80002 0x20 0x69
        = add_queued_request open_example 0x20 0x69 ((List.range 128).map (frame_mem [1, 2, 3])) :=
  ⟨((size_validation 128 open_example (frame_mem [1, 2, 3]) 0 0xC0A80002 0x20 0x69).1
      (Or.inl rfl)).1,
    ((size_validation 128 open_example (frame_mem [1, 2, 3]) 129 0xC0A80002 0x20 0x69).1
      (Or.inr (by decide))).1,
    (size_validation 128 open_example (frame_mem [1, 2, 3]) 128 0xC0A80002 0x20 0x69).2
      rfl (by decide) rfl rfl⟩

/-- Apart from the request queues, `handle_udp_packet` writes no field. -/
theorem handle_udp_packet_fields {Env : Type} (MAX_DATA_LEN : Nat) (self : NibeGwComponent Env)
    (data : Nat → Nat) (len : Int) (from_ip : IPAddress) (address token : Nat) :
    ∃ queues, handle_udp_packet MAX_DATA_LEN self data len from_ip address token
      = { self with requests_ := queues } := by
  unfold handle_udp_packet
  split_ifs
  · exact ⟨self.requests_, rfl⟩
  · exact ⟨self.requests_, rfl⟩
  · exact ⟨self.requests_, rfl⟩
  · exact ⟨self.requests_, rfl⟩
  · exact ⟨_, rfl⟩

/-- C17. Token requests touch only their own key. A call for key `k` leaves every other
key's queue, the provider map, the listener map, the target list, the allow-list, the
connectivity flag, both descriptors and both ports as they were; when `k`'s queue is
`front :: rest` it becomes `rest` (the front is removed, the rest keeps its order), and
otherwise `k`'s queue is left as it was. -/
theorem token_request_frame {Env : Type} (MAX_DATA_LEN : Nat) (self : NibeGwComponent Env)
    (address command : Nat) (data : List Nat) (env : Env) :
    (∀ key : request_key_type, key ≠ (address, command) →
        (callback_msg_token_received MAX_DATA_LEN self address command data env).self.requests_ key
          = self.requests_ key)
      ∧ (∀ (front : request_data_type) (rest : List request_data_type),
          self.requests_ (address, command) = some (front :: rest) →
          (callback_msg_token_received MAX_DATA_LEN self address command data env).self.requests_
            (address, command) = some rest)
      ∧ ((self.requests_ (address, command) = none
            ∨ self.requests_ (address, command) = some []) →
          (callback_msg_token_received MAX_DATA_LEN self address command data env).self.requests_
            (address, command) = self.requests_ (address, command))
      ∧ (callback_msg_token_received MAX_DATA_LEN self address command data env).self
        = { self with
            requests_ :=
              (callback_msg_token_received MAX_DATA_LEN self address command data
                env).self.requests_ } := by
  rcases queue_cases self (address, command) with hq | ⟨front, rest, hq⟩
  · have hself : (callback_msg_token_received MAX_DATA_LEN self address command data env).self
        = self := by
      cases hp : self.requests_provider_ (address, command) with
      | none => rw [token_miss MAX_DATA_LEN self address command data env hq hp]
      | some provider =>
        rw [token_from_provider MAX_DATA_LEN self address command data env provider hq hp]
    rw [hself]
    refine ⟨fun _ _ => rfl, ?_, fun _ => rfl, rfl⟩
    intro front rest hfront
    rcases hq with h | h <;> rw [h] at hfront <;> simp at hfront
  · rw [token_from_queue MAX_DATA_LEN self address command data env front rest hq]
    refine ⟨?_, ?_, ?_, rfl⟩
    · intro key hkey
      simp [Function.update_noteq hkey]
    · intro front2 rest2 h2
      rw [hq] at h2
      simp only [Option.some.injEq, List.cons.injEq] at h2
      simp [h2.2]
    · intro h
      rcases h with h | h <;> rw [hq] at h <;> simp at h

/-- Witness for C17: a request for `(0x0020, 0x06)` on a queue holding two payloads
removes the first and keeps the second, and leaves the (absent) queue of `(0x0016, 0x00)`
alone. -/
theorem token_request_frame_witness :
    (callback_msg_token_received 128 oversize_then_short_example 0x0020 0x06 buffer_example
        0).self.requests_ (0x0020, 0x06) = some [[9]]
      ∧ (callback_msg_token_received 128 oversize_then_short_example 0x0020 0x06 buffer_example
        0).self.requests_ (0x0016, 0x00) = oversize_then_short_example.requests_ (0x0016, 0x00) :=
  ⟨(token_request_frame 128 oversize_then_short_example 0x0020 0x06 buffer_example 0).2.1
      (List.replicate 130 7) [[9]] rfl,
    (token_request_frame 128 oversize_then_short_example 0x0020 0x06 buffer_example 0).1
      (0x0016, 0x00) (by decide)⟩

/-- C20. An over-long queued payload is consumed whole. When the front `p` of the key's
queue is longer than `MAX_DATA_LEN`, one request returns `MAX_DATA_LEN`, writes the first
`MAX_DATA_LEN` bytes of `p` and leaves the callables' state alone; the component it
leaves is the one with `p` removed from the queue, which no longer holds any byte of `p`;
a front `q` with the same first `MAX_DATA_LEN` bytes gives the same length and buffer, so
the bytes beyond that never show; and the next request is answered exactly as a request
on the component with `p` removed. -/
theorem oversize_consumed_whole {Env : Type} (MAX_DATA_LEN : Nat) (self : NibeGwComponent Env)
    (address command : Nat) (data next : List Nat) (env : Env)
    (p : request_data_type) (rest : List request_data_type)
    (hq : self.requests_ (address, command) = some (p :: rest))
    (hlong : MAX_DATA_LEN < p.length) :
    (callback_msg_token_received MAX_DATA_LEN self address command data env).len = MAX_DATA_LEN
      ∧ (callback_msg_token_received MAX_DATA_LEN self address command data env).data
        = p.take MAX_DATA_LEN ++ data.drop MAX_DATA_LEN
      ∧ (callback_msg_token_received MAX_DATA_LEN self address command data env).env = env
      ∧ (callback_msg_token_received MAX_DATA_LEN self address command data env).self
        = { self with
            requests_ := Function.update self.requests_ (address, command) (some rest) }
      ∧ (∀ q : request_data_type, MAX_DATA_LEN < q.length →
          q.take MAX_DATA_LEN = p.take MAX_DATA_LEN →
          callback_msg_token_received MAX_DATA_LEN
              { self with
                requests_ :=
                  Function.update self.requests_ (address, command) (some (q :: rest)) }
              address command data env
            = callback_msg_token_received MAX_DATA_LEN self address command data env)
      ∧ callback_msg_token_received MAX_DATA_LEN
          (callback_msg_token_received MAX_DATA_LEN self address command data env).self
          address command next
          (callback_msg_token_received MAX_DATA_LEN self address command data env).env
        = callback_msg_token_received MAX_DATA_LEN
            { self with
              requests_ := Function.update self.requests_ (address, command) (some rest) }
            address command next env := by
  have hstep := token_from_queue MAX_DATA_LEN self address command data env p rest hq
  have hmin : min p.length MAX_DATA_LEN = MAX_DATA_LEN := Nat.min_eq_right (Nat.le_of_lt hlong)
  refine ⟨?_, ?_, ?_, ?_, ?_, ?_⟩
  · rw [hstep]
    exact hmin
  · rw [hstep]
    show p.take (min p.length MAX_DATA_LEN) ++ data.drop (min p.length MAX_DATA_LEN) = _
    rw [hmin]
  · rw [hstep]
  · rw [hstep]
  · intro q hqlong hsame
    have hminq : min q.length MAX_DATA_LEN = MAX_DATA_LEN :=
      Nat.min_eq_right (Nat.le_of_lt hqlong)
    rw [hstep, token_from_queue MAX_DATA_LEN _ address command data env q rest (by simp)]
    simp only [copy_request, hmin, hminq, hsame, Function.update_idem]
  · rw [hstep]

/-- Witness for C20: with `MAX_DATA_LEN = 128` and a queue holding 130 bytes and then
`[9]`, the first request returns 128 and the second is answered from `[9]`. -/
theorem oversize_consumed_whole_witness :
    (callback_msg_token_received 128 oversize_then_short_example 0x0020 0x06
        (List.replicate 128 0) 0).len = 128
      ∧ (callback_msg_token_received 128 oversize_then_short_example 0x0020 0x06
        (List.replicate 128 0) 0).self.requests_ (0x0020, 0x06) = some [[9]]
      ∧ (callback_msg_token_received 128
          (callback_msg_token_received 128 oversize_then_short_example 0x0020 0x06
            (List.replicate 128 0) 0).self
          0x0020 0x06 buffer_example
          (callback_msg_token_received 128 oversize_then_short_example 0x0020 0x06
            (List.replicate 128 0) 0).env).len = 1 := by
  have h := oversize_consumed_whole 128 oversize_then_short_example 0x0020 0x06
    (List.replicate 128 0) buffer_example 0 (List.replicate 130 7) [[9]] rfl (by simp)
  refine ⟨h.1, ?_, ?_⟩
  · rw [h.2.2.2.1]
    rfl
  · rw [h.2.2.2.2.2]
    rfl

/-- Enqueueing a payload of admissible length keeps the queues bounded. -/
theorem queues_bounded_enqueue {Env : Type} (MAX_DATA_LEN : Nat) (self : NibeGwComponent Env)
    (address token : Nat) (request : request_data_type)
    (hb : queues_bounded MAX_DATA_LEN self)
    (hreq : 1 ≤ request.length ∧ request.length ≤ MAX_DATA_LEN) :
    queues_bounded MAX_DATA_LEN (add_queued_request self address token request) := by
  intro key queue hkey p hp
  by_cases hk : key = (address, token)
  · subst hk
    simp only [add_queued_request, Function.update_same, Option.some.injEq] at hkey
    subst hkey
    rcases List.mem_append.mp hp with h | h
    · cases hold : self.requests_ (address, token) with
      | none => rw [hold] at h; simp at h
      | some old =>
        rw [hold] at h
        exact hb (address, token) old hold p (by simpa using h)
    · have : p = request := by simpa using h
      rw [this]
      exact hreq
  · simp only [add_queued_request, Function.update_noteq hk] at hkey
    exact hb key queue hkey p hp

/-- Removing the front of a queue keeps the queues bounded. -/
theorem queues_bounded_pop {Env : Type} (MAX_DATA_LEN : Nat) (self : NibeGwComponent Env)
    (key : request_key_type) (front : request_data_type) (rest : List request_data_type)
    (hb : queues_bounded MAX_DATA_LEN self) (hq : self.requests_ key = some (front :: rest)) :
    queues_bounded MAX_DATA_LEN
      { self with requests_ := Function.update self.requests_ key (some rest) } := by
  intro key2 queue hkey p hp
  by_cases hk : key2 = key
  · subst hk
    simp only [Function.update_same, Option.some.injEq] at hkey
    subst hkey
    exact hb key2 (front :: rest) hq p (List.mem_cons_of_mem front hp)
  · simp only [Function.update_noteq hk] at hkey
    exact hb key2 queue hkey p hp

/-- The intake of a datagram keeps the queues bounded. -/
theorem queues_bounded_handle {Env : Type} (MAX_DATA_LEN : Nat) (self : NibeGwComponent Env)
    (data : Nat → Nat) (len : Int) (from_ip : IPAddress) (address token : Nat)
    (hb : queues_bounded MAX_DATA_LEN self) (hlen : 0 ≤ len) :
    queues_bounded MAX_DATA_LEN
      (handle_udp_packet MAX_DATA_LEN self data len from_ip address token) := by
  unfold handle_udp_packet
  split_ifs with h1 h2 h3 h4
  · exact hb
  · exact hb
  · exact hb
  · exact hb
  · apply queues_bounded_enqueue MAX_DATA_LEN self address token _ hb
    simp only [List.length_map, List.length_range]
    have h5 : ((len.toNat : Nat) : Int) = len := Int.toNat_of_nonneg hlen
    constructor <;> omega

/-- The first two blocks of `loop` do not write the request queues. -/
theorem loop_sockets_requests {Env : Type} (self : NibeGwComponent Env) (inp : LoopInput) :
    (loop_disconnect inp (loop_connect inp ⟨self, []⟩)).self.requests_ = self.requests_ := by
  unfold loop_disconnect loop_connect
  split_ifs <;> rfl

/-- One call of `loop` keeps the queues bounded. -/
theorem queues_bounded_loop {Env : Type} (MAX_DATA_LEN MODBUS40 READ_TOKEN WRITE_TOKEN : Nat)
    (self : NibeGwComponent Env) (inp : LoopInput) (hb : queues_bounded MAX_DATA_LEN self) :
    queues_bounded MAX_DATA_LEN
      (loop MAX_DATA_LEN MODBUS40 READ_TOKEN WRITE_TOKEN self inp).self := by
  have h0 : queues_bounded MAX_DATA_LEN (loop_disconnect inp (loop_connect inp ⟨self, []⟩)).self := by
    intro key queue hkey
    rw [loop_sockets_requests self inp] at hkey
    exact hb key queue hkey
  have h1 : queues_bounded MAX_DATA_LEN
      (loop_poll_read MAX_DATA_LEN MODBUS40 READ_TOKEN inp
        (loop_disconnect inp (loop_connect inp ⟨self, []⟩))).self := by
    unfold loop_poll_read
    split_ifs with hc hn
    · exact queues_bounded_handle MAX_DATA_LEN _ _ _ _ _ _ h0 (by omega)
    · exact h0
    · exact h0
  unfold loop
  unfold loop_poll_write
  split_ifs with hc hn
  · exact queues_bounded_handle MAX_DATA_LEN _ _ _ _ _ _ h1 (by omega)
  · exact h1
  · exact h1

/-- C19. Queued payloads delivered through UDP are never truncated. The predicate "every
payload in every queue has length between 1 and `MAX_DATA_LEN`" is (1) preserved by
`handle_udp_packet` for every datagram (a length is never negative) and (2) preserved by
`callback_msg_token_received`; (3) under it a request answered from a queue returns the
length of the front payload and writes that payload in full; (4) so after a datagram has
been accepted for `(address, token)`, the token requests that drain that queue return the
payloads queued before it and then the datagram's bytes, each complete and in order;
(5) the predicate is also preserved by `loop`, whatever `recvfrom` answers, since `loop`
hands over a datagram only when the returned length is positive. -/
theorem udp_payloads_never_truncated {Env : Type} (MAX_DATA_LEN : Nat)
    (self : NibeGwComponent Env) (hb : queues_bounded MAX_DATA_LEN self) :
    (∀ (data : Nat → Nat) (len : Int) (from_ip : IPAddress) (address token : Nat),
        0 ≤ len →
        queues_bounded MAX_DATA_LEN
          (handle_udp_packet MAX_DATA_LEN self data len from_ip address token))
      ∧ (∀ (address command : Nat) (data : List Nat) (env : Env),
          queues_bounded MAX_DATA_LEN
            (callback_msg_token_received MAX_DATA_LEN self address command data env).self)
      ∧ (∀ (address command : Nat) (data : List Nat) (env : Env)
          (front : request_data_type) (rest : List request_data_type),
          self.requests_ (address, command) = some (front :: rest) →
          (callback_msg_token_received MAX_DATA_LEN self address command data env).len
              = front.length
            ∧ (callback_msg_token_received MAX_DATA_LEN self address command data env).data
              = front ++ data.drop front.length)
      ∧ (∀ (data : Nat → Nat) (len : Int) (from_ip : IPAddress) (address token : Nat)
          (bufs : List (List Nat)) (env : Env),
          self.is_connected_ = true → 0 < len → len ≤ (MAX_DATA_LEN : Int) →
          is_source_ip_allowed self from_ip = true →
          bufs.length = ((self.requests_ (address, token)).getD []).length + 1 →
          (token_requests MAX_DATA_LEN
              (handle_udp_packet MAX_DATA_LEN self data len from_ip address token)
              address token bufs env).map (fun r => (r.len, r.data, r.env))
            = List.zipWith (fun p d => (p.length, p ++ d.drop p.length, env))
                ((self.requests_ (address, token)).getD [] ++ [(List.range len.toNat).map data])
                bufs)
      ∧ (∀ (MODBUS40 READ_TOKEN WRITE_TOKEN : Nat) (inp : LoopInput),
          queues_bounded MAX_DATA_LEN
            (loop MAX_DATA_LEN MODBUS40 READ_TOKEN WRITE_TOKEN self inp).self) := by
  refine ⟨?_, ?_, ?_, ?_, ?_⟩
  rotate_right
  · intro MODBUS40 READ_TOKEN WRITE_TOKEN inp
    exact queues_bounded_loop MAX_DATA_LEN MODBUS40 READ_TOKEN WRITE_TOKEN self inp hb
  · intro data len from_ip address token hlen
    exact queues_bounded_handle MAX_DATA_LEN self data len from_ip address token hb hlen
  · intro address command data env
    rcases queue_cases self (address, command) with hq | ⟨front, rest, hq⟩
    · cases hp : self.requests_provider_ (address, command) with
      | none =>
        rw [token_miss MAX_DATA_LEN self address command data env hq hp]
        exact hb
      | some provider =>
        rw [token_from_provider MAX_DATA_LEN self address command data env provider hq hp]
        exact hb
    · rw [token_from_queue MAX_DATA_LEN self address command data env front rest hq]
      exact queues_bounded_pop MAX_DATA_LEN self (address, command) front rest hb hq
  · intro address command data env front rest hq
    have hfit : front.length ≤ MAX_DATA_LEN :=
      (hb (address, command) (front :: rest) hq front (List.mem_cons_self front rest)).2
    rw [token_from_queue MAX_DATA_LEN self address command data env front rest hq,
      copy_request_fits MAX_DATA_LEN front data hfit]
    exact ⟨rfl, rfl⟩
  · intro data len from_ip address token bufs env hconn hpos hmax hsrc hbufs
    have hacc := handle_udp_packet_accept MAX_DATA_LEN self data len from_ip address token
      hconn hpos hmax hsrc
    have hafter : queues_bounded MAX_DATA_LEN
        (handle_udp_packet MAX_DATA_LEN self data len from_ip address token) := by
      rw [hacc]
      apply queues_bounded_enqueue MAX_DATA_LEN self address token _ hb
      simp only [List.length_map, List.length_range]
      have h5 : ((len.toNat : Nat) : Int) = len := Int.toNat_of_nonneg (by omega)
      constructor <;> omega
    have hqueue : ((handle_udp_packet MAX_DATA_LEN self data len from_ip address token).requests_
        (address, token)).getD []
          = (self.requests_ (address, token)).getD [] ++ [(List.range len.toNat).map data] := by
      rw [hacc]
      simp [add_queued_request]
    have hall : ∀ p ∈ (self.requests_ (address, token)).getD []
        ++ [(List.range len.toNat).map data], p.length ≤ MAX_DATA_LEN := by
      intro p hp
      rw [← hqueue] at hp
      cases hq : (handle_udp_packet MAX_DATA_LEN self data len from_ip address token).requests_
          (address, token) with
      | none => rw [hq] at hp; simp at hp
      | some queue =>
        rw [hq] at hp
        exact (hafter (address, token) queue hq p (by simpa using hp)).2
    obtain ⟨after, _, _, h3⟩ := token_requests_drain MAX_DATA_LEN address token [] env
      ((self.requests_ (address, token)).getD [] ++ [(List.range len.toNat).map data])
      (handle_udp_packet MAX_DATA_LEN self data len from_ip address token) bufs hqueue hall
      (by simpa using hbufs)
    simpa [token_requests] using h3

/-- Witness for C19: the datagram `[1, 2, 3]` accepted by an empty connected component for
`(0x20, 0x69)` comes back whole at the next token request. -/
theorem udp_payloads_never_truncated_witness :
    (token_requests 128
        (handle_udp_packet 128 open_example (frame_mem [1, 2, 3]) 3 0xC0A80002 0x20 0x69)
        0x20 0x69 [buffer_example] 0).map (fun r => (r.len, r.data, r.env))
      = [(3, [1, 2, 3, 0, 0, 0, 0, 0], 0)] :=
  (udp_payloads_never_truncated 128 open_example
    (by intro key queue hkey; exact absurd hkey (by simp [open_example, NibeGwComponent.fresh]))).2.2.2.1
    (frame_mem [1, 2, 3]) 3 0xC0A80002 0x20 0x69 [buffer_example] 0 rfl (by decide) (by decide)
    rfl rfl

/-! ## Frames from the bus -/

/-- The key expression `static_cast<uint16_t>(data[2] | (data[1] << 8))` on two bytes. -/
theorem key_address (hi lo : Nat) (hhi : hi < 256) (hlo : lo < 256) :
    (lo ||| (hi <<< 8)) % 65536 = hi * 256 + lo := by
  have h1 : 2 ^ 8 * hi + lo = 2 ^ 8 * hi ||| lo := Nat.mul_add_lt_is_or (by omega) hi
  rw [Nat.or_comm, Nat.shiftLeft_eq, Nat.mul_comm hi (2 ^ 8), ← h1]
  omega

/-- The listener part of `callback_msg_received`, with the key written arithmetically. -/
theorem received_env {Env : Type} (STARTBYTE_MASTER : Nat) (self : NibeGwComponent Env)
    (net : SendOutcomes) (data : Nat → Nat) (len : Int) (env : Env)
    (h1 : data 1 < 256) (h2 : data 2 < 256) :
    (callback_msg_received STARTBYTE_MASTER self net data len env).env
      = match self.message_listener_ (data 1 * 256 + data 2, data 3) with
        | some listener => listener (dedup data len STARTBYTE_MASTER) env
        | none => env := by
  unfold callback_msg_received
  simp only [key_address (data 1) (data 2) h1 h2]
  split_ifs <;> rfl

/-- C13. Listener dispatch. For a frame whose bytes 1 and 2 are bytes, the key is
`(data[1] * 256 + data[2], data[3])`: (1) a listener registered for that key is applied
exactly once, to `dedup(data, len, STARTBYTE_MASTER)`; (2) with none registered the
callables' state is left as it was; (3) the connectivity flag makes no difference to
this; (4) registering, replacing or removing a listener under any other key makes no
difference either, so no such listener runs. -/
theorem listener_dispatch {Env : Type} (STARTBYTE_MASTER : Nat) (self : NibeGwComponent Env)
    (net : SendOutcomes) (data : Nat → Nat) (len : Int) (env : Env)
    (h1 : data 1 < 256) (h2 : data 2 < 256) :
    (∀ listener : request_data_type → Env → Env,
        self.message_listener_ (data 1 * 256 + data 2, data 3) = some listener →
        (callback_msg_received STARTBYTE_MASTER self net data len env).env
          = listener (dedup data len STARTBYTE_MASTER) env)
      ∧ (self.message_listener_ (data 1 * 256 + data 2, data 3) = none →
          (callback_msg_received STARTBYTE_MASTER self net data len env).env = env)
      ∧ (∀ connected : Bool,
          (callback_msg_received STARTBYTE_MASTER { self with is_connected_ := connected }
              net data len env).env
            = (callback_msg_received STARTBYTE_MASTER self net data len env).env)
      ∧ (∀ (key : request_key_type) (entry : Option (request_data_type → Env → Env)),
          key ≠ (data 1 * 256 + data 2, data 3) →
          (callback_msg_received STARTBYTE_MASTER
              { self with
                message_listener_ := Function.update self.message_listener_ key entry }
              net data len env).env
            = (callback_msg_received STARTBYTE_MASTER self net data len env).env) := by
  refine ⟨?_, ?_, ?_, ?_⟩
  · intro listener hl
    rw [received_env STARTBYTE_MASTER self net data len env h1 h2, hl]
  · intro hl
    rw [received_env STARTBYTE_MASTER self net data len env h1 h2, hl]
  · intro connected
    rw [received_env STARTBYTE_MASTER self net data len env h1 h2,
      received_env STARTBYTE_MASTER _ net data len env h1 h2]
  · intro key entry hkey
    rw [received_env STARTBYTE_MASTER self net data len env h1 h2,
      received_env STARTBYTE_MASTER _ net data len env h1 h2]
    simp only [Function.update_noteq (Ne.symm hkey)]

/-- Witness for C13: the frame addressed `0x0020` with command `0x68` reaches the listener
registered under `(0x0020, 0x68)` once, with the deduplicated payload `[1, 0x5C, 2]`. -/
theorem listener_dispatch_witness :
    (callback_msg_received 0x5C connected_example outcomes_example (frame_mem frame_example) 10
        ([], 0)).env
      = (fun (payload : List Nat) (seen : List (List Nat) × Nat) =>
          (seen.1 ++ [payload], seen.2 + 1))
          (dedup (frame_mem frame_example) 10 0x5C) ([], 0)
      ∧ dedup (frame_mem frame_example) 10 0x5C = [1, 0x5C, 2] :=
  ⟨(listener_dispatch 0x5C connected_example outcomes_example (frame_mem frame_example) 10
      ([], 0) (by decide) (by decide)).1 _ rfl,
    by decide⟩

/-- With a usable descriptor the target loop makes one `sendto` per target whose address
parses, in list order, each with the same bytes and the answer for its position. -/
theorem send_to_targets_valid (fd : Int) (net : SendOutcomes) (bytes : List Nat)
    (hfd : 0 ≤ fd) :
    ∀ (targets : List (IPAddress × Nat)) (i : Nat),
      send_to_targets fd net bytes i targets
        = ((targets.enumFrom i).filter (fun it => decide (0 < net.inet_pton it.2.1))).map
            (fun it => SysCall.sendto fd bytes it.2.1 it.2.2 (net.sendto it.1)) := by
  intro targets
  induction targets with
  | nil => intro i; simp [send_to_targets]
  | cons target rest ih =>
    intro i
    have hnot : ¬ fd < 0 := by omega
    unfold send_to_targets
    rw [if_neg hnot, List.enumFrom_cons]
    by_cases hp : net.inet_pton target.1 ≤ 0
    · have hf : decide (0 < net.inet_pton target.1) = false := by
        simp only [decide_eq_false_iff_not]
        omega
      rw [if_pos hp, ih (i + 1), List.filter_cons_of_neg (by simp [hf])]
    · have ht : decide (0 < net.inet_pton target.1) = true := by
        simp only [decide_eq_true_eq]
        omega
      rw [if_neg hp, ih (i + 1), List.filter_cons_of_pos (by simp [ht]), List.map_cons]

/-- With an unusable descriptor the target loop sends nothing. -/
theorem send_to_targets_invalid (fd : Int) (net : SendOutcomes) (bytes : List Nat)
    (hfd : fd < 0) :
    ∀ (targets : List (IPAddress × Nat)) (i : Nat),
      send_to_targets fd net bytes i targets = [] := by
  intro targets
  induction targets with
  | nil => intro i; simp [send_to_targets]
  | cons target rest ih =>
    intro i
    unfold send_to_targets
    rw [if_pos hfd, ih (i + 1)]

/-- Every call of the target loop is a `sendto` on the descriptor given, with the bytes
given. -/
theorem send_to_targets_fd (fd : Int) (net : SendOutcomes) (bytes : List Nat) :
    ∀ (targets : List (IPAddress × Nat)) (i : Nat),
      ∀ c ∈ send_to_targets fd net bytes i targets,
        ∃ ip port result, c = SysCall.sendto fd bytes ip port result := by
  intro targets
  induction targets with
  | nil => intro i c hc; simp [send_to_targets] at hc
  | cons target rest ih =>
    intro i c hc
    unfold send_to_targets at hc
    split_ifs at hc
    · exact ih (i + 1) c hc
    · exact ih (i + 1) c hc
    · rcases List.mem_cons.mp hc with h | h
      · exact ⟨target.1, target.2, net.sendto i, h⟩
      · exact ih (i + 1) c h

/-- The socket calls of `callback_msg_received`. -/
theorem received_calls {Env : Type} (STARTBYTE_MASTER : Nat) (self : NibeGwComponent Env)
    (net : SendOutcomes) (data : Nat → Nat) (len : Int) (env : Env) :
    (callback_msg_received STARTBYTE_MASTER self net data len env).calls
      = if self.is_connected_ = true then
          send_to_targets self.udp_read_fd_ net ((List.range len.toNat).map data) 0
            self.udp_targets_
        else [] := by
  unfold callback_msg_received
  cases self.is_connected_ <;> simp

/-- C14. Independent fan-out of raw frames. When the component is connected and the
descriptor it sends on (`udp_read_fd_`) is valid, the calls made are exactly one `sendto`
per entry of the target list whose address parses, in list order, duplicates included,
each carrying the `len` bytes at `data` as they are; the answers of earlier `sendto`
calls and unparseable entries do not enter into which later calls are made, so the count
of calls is the count of parseable entries. When the component is not connected no call
is made. -/
theorem fanout_raw_frames {Env : Type} (STARTBYTE_MASTER : Nat) (self : NibeGwComponent Env)
    (net : SendOutcomes) (data : Nat → Nat) (len : Int) (env : Env) :
    (self.is_connected_ = true → 0 ≤ self.udp_read_fd_ →
        (callback_msg_received STARTBYTE_MASTER self net data len env).calls
            = ((self.udp_targets_.enumFrom 0).filter
                  (fun it => decide (0 < net.inet_pton it.2.1))).map
                (fun it => SysCall.sendto self.udp_read_fd_ ((List.range len.toNat).map data)
                  it.2.1 it.2.2 (net.sendto it.1))
          ∧ (callback_msg_received STARTBYTE_MASTER self net data len env).calls.length
            = (self.udp_targets_.filter (fun t => decide (0 < net.inet_pton t.1))).length)
      ∧ (self.is_connected_ = false →
          (callback_msg_received STARTBYTE_MASTER self net data len env).calls = []) := by
  constructor
  · intro hconn hfd
    have hcalls : (callback_msg_received STARTBYTE_MASTER self net data len env).calls
        = ((self.udp_targets_.enumFrom 0).filter
              (fun it => decide (0 < net.inet_pton it.2.1))).map
            (fun it => SysCall.sendto self.udp_read_fd_ ((List.range len.toNat).map data)
              it.2.1 it.2.2 (net.sendto it.1)) := by
      rw [received_calls, if_pos hconn, send_to_targets_valid _ net _ hfd]
    refine ⟨hcalls, ?_⟩
    rw [hcalls, List.length_map]
    have hsnd : (self.udp_targets_.filter (fun t => decide (0 < net.inet_pton t.1)))
        = ((self.udp_targets_.enumFrom 0).filter
            (fun it => decide (0 < net.inet_pton it.2.1))).map Prod.snd := by
      conv_lhs => rw [← List.enumFrom_map_snd 0 self.udp_targets_]
      rw [List.filter_map]
      rfl
    rw [hsnd, List.length_map]
  · intro hconn
    rw [received_calls]
    simp [hconn]

/-- Witness for C14: three targets, the second unparseable and the first `sendto` failing;
the first and the third target are both sent the ten raw bytes of the frame, which are
not the deduplicated payload. -/
theorem fanout_raw_frames_witness :
    (callback_msg_received 0x5C connected_example outcomes_example (frame_mem frame_example) 10
        ([], 0)).calls
      = [SysCall.sendto 3 frame_example 0xC0A80164 9999 (-1),
          SysCall.sendto 3 frame_example 0xC0A80164 9999 10]
      ∧ frame_example ≠ dedup (frame_mem frame_example) 10 0x5C :=
  ⟨((fanout_raw_frames 0x5C connected_example outcomes_example (frame_mem frame_example) 10
      ([], 0)).1 rfl (by decide)).1.trans (by decide),
    by decide⟩

/-! ## Connectivity -/

/-- A descriptor left usable by `open_and_bind` is the one `::socket` just returned, and
it was bound to the port with success. -/
theorem open_and_bind_valid (socket_result bind_result : Int) (port : Nat)
    (h : 0 ≤ (open_and_bind socket_result bind_result port).1) :
    (open_and_bind socket_result bind_result port).1 = socket_result
      ∧ 0 ≤ bind_result
      ∧ SysCall.socket socket_result ∈ (open_and_bind socket_result bind_result port).2
      ∧ SysCall.bind socket_result port bind_result
          ∈ (open_and_bind socket_result bind_result port).2
      ∧ SysCall.close socket_result ∉ (open_and_bind socket_result bind_result port).2 := by
  unfold open_and_bind at h ⊢
  split_ifs at h ⊢ with h1 h2
  · simp at h
  · refine ⟨rfl, by omega, by simp, by simp, by simp⟩
  · exact absurd h (by simpa using h1)

/-- A poll of the read socket writes the request queues only and appends its calls. -/
theorem loop_poll_read_shape {Env : Type} (MAX_DATA_LEN MODBUS40 READ_TOKEN : Nat)
    (inp : LoopInput) (t : Tick Env) :
    ∃ queues extra, loop_poll_read MAX_DATA_LEN MODBUS40 READ_TOKEN inp t
      = ⟨{ t.self with requests_ := queues }, t.calls ++ extra⟩ := by
  unfold loop_poll_read
  split_ifs
  · obtain ⟨queues, hq⟩ := handle_udp_packet_fields MAX_DATA_LEN t.self inp.recv_read.buf
      inp.recv_read.n inp.recv_read.from_ip MODBUS40 READ_TOKEN
    exact ⟨queues, _, by rw [hq]⟩
  · exact ⟨t.self.requests_, _, rfl⟩
  · exact ⟨t.self.requests_, [], by simp⟩

/-- A poll of the write socket writes the request queues only and appends its calls. -/
theorem loop_poll_write_shape {Env : Type} (MAX_DATA_LEN MODBUS40 WRITE_TOKEN : Nat)
    (inp : LoopInput) (t : Tick Env) :
    ∃ queues extra, loop_poll_write MAX_DATA_LEN MODBUS40 WRITE_TOKEN inp t
      = ⟨{ t.self with requests_ := queues }, t.calls ++ extra⟩ := by
  unfold loop_poll_write
  split_ifs
  · obtain ⟨queues, hq⟩ := handle_udp_packet_fields MAX_DATA_LEN t.self inp.recv_write.buf
      inp.recv_write.n inp.recv_write.from_ip MODBUS40 WRITE_TOKEN
    exact ⟨queues, _, by rw [hq]⟩
  · exact ⟨t.self.requests_, _, rfl⟩
  · exact ⟨t.self.requests_, [], by simp⟩

/-- After its first two blocks `loop` writes the request queues only and appends calls. -/
theorem loop_shape {Env : Type} (MAX_DATA_LEN MODBUS40 READ_TOKEN WRITE_TOKEN : Nat)
    (self : NibeGwComponent Env) (inp : LoopInput) :
    ∃ queues extra, loop MAX_DATA_LEN MODBUS40 READ_TOKEN WRITE_TOKEN self inp
      = ⟨{ (loop_disconnect inp (loop_connect inp ⟨self, []⟩)).self with requests_ := queues },
          (loop_disconnect inp (loop_connect inp ⟨self, []⟩)).calls ++ extra⟩ := by
  unfold loop
  obtain ⟨q1, e1, h1⟩ := loop_poll_read_shape MAX_DATA_LEN MODBUS40 READ_TOKEN inp
    (loop_disconnect inp (loop_connect inp ⟨self, []⟩))
  obtain ⟨q2, e2, h2⟩ := loop_poll_write_shape MAX_DATA_LEN MODBUS40 WRITE_TOKEN inp
    (loop_poll_read MAX_DATA_LEN MODBUS40 READ_TOKEN inp
      (loop_disconnect inp (loop_connect inp ⟨self, []⟩)))
  refine ⟨q2, e1 ++ e2, ?_⟩
  rw [h2, h1]
  simp

/-- The first two blocks of `loop` on a disconnected component when the network is up. -/
theorem loop_goes_up {Env : Type} (self : NibeGwComponent Env) (inp : LoopInput)
    (hdis : self.is_connected_ = false) (hup : inp.network_up = true)
    (hagain : inp.network_up_again = true) :
    loop_disconnect inp (loop_connect inp ⟨self, []⟩)
      = ⟨{ self with
            udp_read_fd_ :=
              (open_and_bind inp.socket_read inp.bind_read self.udp_read_port_).1,
            udp_write_fd_ :=
              (open_and_bind inp.socket_write inp.bind_write self.udp_write_port_).1,
            is_connected_ := true },
          (open_and_bind inp.socket_read inp.bind_read self.udp_read_port_).2
            ++ (open_and_bind inp.socket_write inp.bind_write self.udp_write_port_).2⟩ := by
  simp [loop_connect, loop_disconnect, hdis, hup, hagain]

/-- Counterexample for C15: a connected component whose read socket is 3 and whose write
socket is 4 sends the frame on descriptor 3; it sends the same with the write socket
invalid; and with the read socket invalid and the write socket valid it sends nothing. -/
theorem fanout_write_socket_counterexample :
    connected_example.udp_read_fd_ = 3
      ∧ connected_example.udp_write_fd_ = 4
      ∧ (callback_msg_received 0x5C connected_example outcomes_example
            (frame_mem frame_example) 10 ([], 0)).calls
          = [SysCall.sendto 3 frame_example 0xC0A80164 9999 (-1),
              SysCall.sendto 3 frame_example 0xC0A80164 9999 10]
      ∧ (callback_msg_received 0x5C { connected_example with udp_write_fd_ := -1 }
            outcomes_example (frame_mem frame_example) 10 ([], 0)).calls
          = [SysCall.sendto 3 frame_example 0xC0A80164 9999 (-1),
              SysCall.sendto 3 frame_example 0xC0A80164 9999 10]
      ∧ (callback_msg_received 0x5C { connected_example with udp_read_fd_ := -1 }
            outcomes_example (frame_mem frame_example) 10 ([], 0)).calls = [] := by
  refine ⟨rfl, rfl, ?_, ?_, ?_⟩ <;> decide

/-- C15, amended. Bus-to-network frames leave through the read socket: every call
`callback_msg_received` makes is a `sendto` on `udp_read_fd_` carrying the raw frame
bytes; with `udp_read_fd_` negative nothing is sent; the value of `udp_write_fd_` makes
no difference to the call at all; and a `udp_read_fd_` left non-negative by the tick of
`loop` that connects is the descriptor bound in that tick to the configured read port. -/
theorem fanout_read_socket {Env : Type} (STARTBYTE_MASTER : Nat) (self : NibeGwComponent Env)
    (net : SendOutcomes) (data : Nat → Nat) (len : Int) (env : Env) :
    (∀ c ∈ (callback_msg_received STARTBYTE_MASTER self net data len env).calls,
        ∃ ip port result,
          c = SysCall.sendto self.udp_read_fd_ ((List.range len.toNat).map data) ip port result)
      ∧ (self.udp_read_fd_ < 0 →
          (callback_msg_received STARTBYTE_MASTER self net data len env).calls = [])
      ∧ (∀ write_fd : Int,
          callback_msg_received STARTBYTE_MASTER { self with udp_write_fd_ := write_fd }
              net data len env
            = callback_msg_received STARTBYTE_MASTER self net data len env)
      ∧ (∀ (MAX_DATA_LEN MODBUS40 READ_TOKEN WRITE_TOKEN : Nat) (inp : LoopInput),
          self.is_connected_ = false → inp.network_up = true → inp.network_up_again = true →
          0 ≤ (loop MAX_DATA_LEN MODBUS40 READ_TOKEN WRITE_TOKEN self inp).self.udp_read_fd_ →
          0 ≤ inp.bind_read
            ∧ SysCall.bind
                (loop MAX_DATA_LEN MODBUS40 READ_TOKEN WRITE_TOKEN self inp).self.udp_read_fd_
                self.udp_read_port_ inp.bind_read
              ∈ (loop MAX_DATA_LEN MODBUS40 READ_TOKEN WRITE_TOKEN self inp).calls) := by
  refine ⟨?_, ?_, ?_, ?_⟩
  · intro c hc
    rw [received_calls] at hc
    split_ifs at hc
    · exact send_to_targets_fd _ net _ _ 0 c hc
    · simp at hc
  · intro hfd
    rw [received_calls]
    split_ifs
    · exact send_to_targets_invalid _ net _ hfd _ 0
    · rfl
  · intro write_fd
    rfl
  · intro MAX_DATA_LEN MODBUS40 READ_TOKEN WRITE_TOKEN inp hdis hup hagain
    obtain ⟨queues, extra, hloop⟩ :=
      loop_shape MAX_DATA_LEN MODBUS40 READ_TOKEN WRITE_TOKEN self inp
    rw [hloop, loop_goes_up self inp hdis hup hagain]
    intro h
    obtain ⟨h1, h2, _, h4, _⟩ := open_and_bind_valid inp.socket_read inp.bind_read
      self.udp_read_port_ h
    refine ⟨h2, ?_⟩
    show SysCall.bind (open_and_bind inp.socket_read inp.bind_read self.udp_read_port_).1
        self.udp_read_port_ inp.bind_read ∈ _
    rw [h1]
    simp [h4]

/-- Witness for C15, amended: with the read socket made invalid and the write socket
valid, nothing is sent. -/
theorem fanout_read_socket_witness :
    (callback_msg_received 0x5C { connected_example with udp_read_fd_ := -1 }
        outcomes_example (frame_mem frame_example) 10 ([], 0)).calls = [] :=
  (fanout_read_socket 0x5C { connected_example with udp_read_fd_ := -1 }
    outcomes_example (frame_mem frame_example) 10 ([], 0)).2.1 (by decide)

/-! ## Runs of the mask byte -/

/-- The scan across `k` mask bytes: it emits `ceil(k/2)` of them from a lowered flag and
`floor(k/2)` from a raised one, and the flag flips when `k` is odd. -/
theorem reference_scan_run (M : Nat) (w : List Nat) :
    ∀ (k : Nat) (flag : Bool),
      reference_scan M flag (List.replicate k M ++ w)
        = List.replicate (if flag = true then k / 2 else (k + 1) / 2) M
            ++ reference_scan M (xor flag (decide (k % 2 = 1))) w := by
  intro k
  induction k with
  | zero => intro flag; simp
  | succ n ih =>
    intro flag
    rw [List.replicate_succ, List.cons_append]
    cases flag with
    | true =>
      have hodd : xor true (decide ((n + 1) % 2 = 1)) = xor false (decide (n % 2 = 1)) := by
        by_cases h : n % 2 = 1
        · have h2 : ¬ (n + 1) % 2 = 1 := by omega
          simp [h, h2]
        · have h2 : (n + 1) % 2 = 1 := by omega
          simp [h, h2]
      simp only [reference_scan, and_self, if_true, ih false, hodd]
      simp
    | false =>
      have hodd : xor false (decide ((n + 1) % 2 = 1)) = xor true (decide (n % 2 = 1)) := by
        by_cases h : n % 2 = 1
        · have h2 : ¬ (n + 1) % 2 = 1 := by omega
          simp [h, h2]
        · have h2 : (n + 1) % 2 = 1 := by omega
          simp [h, h2]
      have hcount : (n + 1 + 1) / 2 = n / 2 + 1 := by omega
      simp only [reference_scan, hodd]
      simp only [Bool.false_eq_true, and_false, if_false, decide_True, ih true, if_true, hcount,
        List.replicate_succ, List.cons_append]

/-- In front of a byte other than the mask byte, or of nothing, the flag does not matter. -/
theorem reference_scan_flag (M : Nat) (flag : Bool) (w : List Nat)
    (h : ∀ b rest, w = b :: rest → b ≠ M) :
    reference_scan M flag w = reference_scan M false w := by
  cases w with
  | nil => simp [reference_scan]
  | cons b rest =>
    have hb : b ≠ M := h b rest rfl
    simp [reference_scan, hb]

/-- Maximal runs that do not begin with a run stand for bytes that do not begin with the
mask byte. -/
theorem expand_head (M : Nat) (segs : List Segment)
    (hmax : maximal_runs M segs = true) (hrun : starts_with_run segs = false) :
    ∀ b rest, expand M segs = b :: rest → b ≠ M := by
  intro b rest hexp
  cases segs with
  | nil => simp [expand] at hexp
  | cons seg tail =>
    cases seg with
    | byte c =>
      simp only [expand, List.cons.injEq] at hexp
      simp only [maximal_runs, Bool.and_eq_true, decide_eq_true_eq] at hmax
      rw [← hexp.1]
      exact hmax.1
    | run k => simp [starts_with_run] at hrun

/-- The scan of what maximal runs stand for is given by the run-length rule. -/
theorem reference_scan_expand (M : Nat) :
    ∀ segs : List Segment, maximal_runs M segs = true →
      reference_scan M false (expand M segs) = collapse M segs := by
  intro segs
  induction segs with
  | nil => intro _; simp [expand, collapse, reference_scan]
  | cons seg tail ih =>
    intro hmax
    cases seg with
    | byte b =>
      simp only [maximal_runs, Bool.and_eq_true, decide_eq_true_eq] at hmax
      simp [expand, collapse, reference_scan, hmax.1, ih hmax.2]
    | run k =>
      simp only [maximal_runs, Bool.and_eq_true, decide_eq_true_eq, Bool.not_eq_true'] at hmax
      obtain ⟨⟨_, hrun⟩, htail⟩ := hmax
      rw [expand, collapse, reference_scan_run,
        reference_scan_flag M _ (expand M tail) (expand_head M tail htail hrun), ih htail]
      simp

theorem collapse_length (M : Nat) :
    ∀ segs : List Segment,
      (collapse M segs).length + removed segs = (expand M segs).length := by
  intro segs
  induction segs with
  | nil => simp [collapse, removed, expand]
  | cons seg tail ih =>
    cases seg with
    | byte b =>
      simp only [collapse, removed, expand, List.length_cons]
      omega
    | run k =>
      simp only [collapse, removed, expand, List.length_append, List.length_replicate]
      omega

/-- The cut into maximal runs stands for the window it was cut from, and is maximal. -/
theorem segments_spec (M : Nat) :
    ∀ w : List Nat, expand M (segments M w) = w ∧ maximal_runs M (segments M w) = true := by
  intro w
  induction w with
  | nil => simp [segments, expand, maximal_runs]
  | cons b rest ih =>
    obtain ⟨hexp, hmax⟩ := ih
    by_cases hb : b = M
    · rw [hb]
      cases hseg : segments M rest with
      | nil =>
        rw [hseg] at hexp
        simp only [expand] at hexp
        simp [segments, hseg, expand, maximal_runs, starts_with_run, ← hexp]
      | cons seg tail =>
        rw [hseg] at hexp hmax
        cases seg with
        | byte c =>
          simp only [segments, hseg, if_true]
          constructor
          · simp [expand, ← hexp]
          · simpa [maximal_runs, starts_with_run] using hmax
        | run k =>
          simp only [segments, hseg, if_true]
          constructor
          · simp only [expand, List.replicate_succ, List.cons_append] at hexp ⊢
            rw [hexp]
          · simp only [maximal_runs, Bool.and_eq_true, decide_eq_true_eq] at hmax ⊢
            exact ⟨⟨by omega, hmax.1.2⟩, hmax.2⟩
    · simp [segments, hb, expand, maximal_runs, hexp, hmax]

/-- C18. Run-length characterisation of dedup. (1) However the window (offsets
`5 .. len - 2`) is cut into bytes other than `M` and maximal runs of `M`, the output is
the same bytes in order with every run of `k` replaced by `ceil(k/2)` bytes `M`, and its
length is the window length minus the sum over the runs of `floor(k/2)`; (2) every window
has such a cut; (3) a window of `k` mask bytes alone yields `ceil(k/2)` mask bytes. -/
theorem dedup_run_length (data : Nat → Nat) (len : Int) (M : Nat) :
    (∀ segs : List Segment, maximal_runs M segs = true →
        expand M segs = dedup_window data len →
        dedup data len M = collapse M segs
          ∧ (dedup data len M).length + removed segs = (dedup_window data len).length)
      ∧ (expand M (segments M (dedup_window data len)) = dedup_window data len
          ∧ maximal_runs M (segments M (dedup_window data len)) = true)
      ∧ (∀ k : Nat, dedup_window data len = List.replicate k M →
          dedup data len M = List.replicate ((k + 1) / 2) M) := by
  refine ⟨?_, segments_spec M (dedup_window data len), ?_⟩
  · intro segs hmax hexp
    have hout : dedup data len M = collapse M segs := by
      rw [dedup_eq_scan, ← hexp, reference_scan_expand M segs hmax]
    refine ⟨hout, ?_⟩
    rw [hout, ← hexp]
    exact collapse_length M segs
  · intro k hk
    rw [dedup_eq_scan, hk]
    have h := reference_scan_run M [] k false
    simp only [List.append_nil] at h
    rw [h]
    simp [reference_scan]

/-- Witness for C18: the window `[1, M, M, 2, M, M, M]` with `M = 0x5C` gives
`[1, M, 2, M, M]`, two bytes shorter; windows of 1, 2, 3 and 4 mask bytes give 1, 1, 2
and 2 of them. -/
theorem dedup_run_length_witness :
    (dedup (frame_mem [0x5C, 0, 0x20, 0x68, 7, 1, 0x5C, 0x5C, 2, 0x5C, 0x5C, 0x5C, 0x77]) 13 0x5C
          = collapse 0x5C [Segment.byte 1, Segment.run 2, Segment.byte 2, Segment.run 3]
        ∧ collapse 0x5C [Segment.byte 1, Segment.run 2, Segment.byte 2, Segment.run 3]
          = [1, 0x5C, 2, 0x5C, 0x5C])
      ∧ dedup (frame_mem [0x5C, 0, 0x20, 0x68, 1, 0x5C, 0x77]) 7 0x5C
          = List.replicate ((1 + 1) / 2) 0x5C
      ∧ dedup (frame_mem [0x5C, 0, 0x20, 0x68, 2, 0x5C, 0x5C, 0x77]) 8 0x5C
          = List.replicate ((2 + 1) / 2) 0x5C
      ∧ dedup (frame_mem [0x5C, 0, 0x20, 0x68, 3, 0x5C, 0x5C, 0x5C, 0x77]) 9 0x5C
          = List.replicate ((3 + 1) / 2) 0x5C
      ∧ dedup (frame_mem [0x5C, 0, 0x20, 0x68, 4, 0x5C, 0x5C, 0x5C, 0x5C, 0x77]) 10 0x5C
          = List.replicate ((4 + 1) / 2) 0x5C :=
  ⟨⟨((dedup_run_length
        (frame_mem [0x5C, 0, 0x20, 0x68, 7, 1, 0x5C, 0x5C, 2, 0x5C, 0x5C, 0x5C, 0x77]) 13 0x5C).1
        [Segment.byte 1, Segment.run 2, Segment.byte 2, Segment.run 3]
        (by decide) (by decide)).1,
      by decide⟩,
    (dedup_run_length (frame_mem [0x5C, 0, 0x20, 0x68, 1, 0x5C, 0x77]) 7 0x5C).2.2 1
      (by decide),
    (dedup_run_length (frame_mem [0x5C, 0, 0x20, 0x68, 2, 0x5C, 0x5C, 0x77]) 8 0x5C).2.2 2
      (by decide),
    (dedup_run_length (frame_mem [0x5C, 0, 0x20, 0x68, 3, 0x5C, 0x5C, 0x5C, 0x77]) 9 0x5C).2.2 3
      (by decide),
    (dedup_run_length (frame_mem [0x5C, 0, 0x20, 0x68, 4, 0x5C, 0x5C, 0x5C, 0x5C, 0x77]) 10
      0x5C).2.2 4 (by decide)⟩

/-! ## One tick of `loop`, block by block -/

/-- What the poll of the read socket does, in full. -/
theorem loop_poll_read_eq {Env : Type} (MAX_DATA_LEN MODBUS40 READ_TOKEN : Nat)
    (inp : LoopInput) (t : Tick Env) :
    loop_poll_read MAX_DATA_LEN MODBUS40 READ_TOKEN inp t
      = ⟨if datagram_taken MAX_DATA_LEN t.self t.self.udp_read_fd_ inp.recv_read = true then
            add_queued_request t.self MODBUS40 READ_TOKEN (datagram_bytes inp.recv_read)
          else t.self,
          t.calls ++
            (if t.self.is_connected_ = true ∧ 0 ≤ t.self.udp_read_fd_ then
              [SysCall.recvfrom t.self.udp_read_fd_ inp.recv_read.n]
            else [])⟩ := by
  unfold loop_poll_read handle_udp_packet datagram_taken datagram_bytes
  cases hc : t.self.is_connected_
  · simp
  · by_cases hfd : 0 ≤ t.self.udp_read_fd_
    · by_cases hn : 0 < inp.recv_read.n
      · have h0 : ¬ inp.recv_read.n = 0 := by omega
        by_cases hm : inp.recv_read.n ≤ (MAX_DATA_LEN : Int)
        · have hm2 : ¬ inp.recv_read.n > (MAX_DATA_LEN : Int) := by omega
          cases hs : is_source_ip_allowed t.self inp.recv_read.from_ip <;>
            simp [hfd, hn, h0, hm, hm2, hs]
        · have hm2 : inp.recv_read.n > (MAX_DATA_LEN : Int) := by omega
          simp [hfd, hn, h0, hm, hm2]
      · simp [hfd, hn]
    · simp [hfd]

/-- What the poll of the write socket does, in full. -/
theorem loop_poll_write_eq {Env : Type} (MAX_DATA_LEN MODBUS40 WRITE_TOKEN : Nat)
    (inp : LoopInput) (t : Tick Env) :
    loop_poll_write MAX_DATA_LEN MODBUS40 WRITE_TOKEN inp t
      = ⟨if datagram_taken MAX_DATA_LEN t.self t.self.udp_write_fd_ inp.recv_write = true then
            add_queued_request t.self MODBUS40 WRITE_TOKEN (datagram_bytes inp.recv_write)
          else t.self,
          t.calls ++
            (if t.self.is_connected_ = true ∧ 0 ≤ t.self.udp_write_fd_ then
              [SysCall.recvfrom t.self.udp_write_fd_ inp.recv_write.n]
            else [])⟩ := by
  unfold loop_poll_write handle_udp_packet datagram_taken datagram_bytes
  cases hc : t.self.is_connected_
  · simp
  · by_cases hfd : 0 ≤ t.self.udp_write_fd_
    · by_cases hn : 0 < inp.recv_write.n
      · have h0 : ¬ inp.recv_write.n = 0 := by omega
        by_cases hm : inp.recv_write.n ≤ (MAX_DATA_LEN : Int)
        · have hm2 : ¬ inp.recv_write.n > (MAX_DATA_LEN : Int) := by omega
          cases hs : is_source_ip_allowed t.self inp.recv_write.from_ip <;>
            simp [hfd, hn, h0, hm, hm2, hs]
        · have hm2 : inp.recv_write.n > (MAX_DATA_LEN : Int) := by omega
          simp [hfd, hn, h0, hm, hm2]
      · simp [hfd, hn]
    · simp [hfd]

/-- Whether a datagram is taken depends on the component through its connectivity flag
and its allow-list only. -/
theorem datagram_taken_congr {Env : Type} (MAX_DATA_LEN : Nat) (a b : NibeGwComponent Env)
    (fd : Int) (r : Received)
    (hc : a.is_connected_ = b.is_connected_) (hs : a.udp_source_ip_ = b.udp_source_ip_) :
    datagram_taken MAX_DATA_LEN a fd r = datagram_taken MAX_DATA_LEN b fd r := by
  unfold datagram_taken is_source_ip_allowed
  rw [hc, hs]

/-- The first two blocks of `loop` leave the allow-list and the ports alone. -/
theorem loop_sockets_config {Env : Type} (self : NibeGwComponent Env) (inp : LoopInput) :
    (loop_disconnect inp (loop_connect inp ⟨self, []⟩)).self.udp_source_ip_
        = self.udp_source_ip_
      ∧ (loop_disconnect inp (loop_connect inp ⟨self, []⟩)).self.udp_read_port_
        = self.udp_read_port_
      ∧ (loop_disconnect inp (loop_connect inp ⟨self, []⟩)).self.udp_write_port_
        = self.udp_write_port_ := by
  unfold loop_disconnect loop_connect
  split_ifs <;> exact ⟨rfl, rfl, rfl⟩

/-- The component after a tick: the one the first two blocks leave, with the answers of
the two polls enqueued when they are taken, the read socket's first. -/
theorem loop_self_eq {Env : Type} (MAX_DATA_LEN MODBUS40 READ_TOKEN WRITE_TOKEN : Nat)
    (self : NibeGwComponent Env) (inp : LoopInput) :
    (loop MAX_DATA_LEN MODBUS40 READ_TOKEN WRITE_TOKEN self inp).self
      = (if datagram_taken MAX_DATA_LEN
              (loop_disconnect inp (loop_connect inp ⟨self, []⟩)).self
              (loop_disconnect inp (loop_connect inp ⟨self, []⟩)).self.udp_write_fd_
              inp.recv_write = true then
          add_queued_request
            (if datagram_taken MAX_DATA_LEN
                  (loop_disconnect inp (loop_connect inp ⟨self, []⟩)).self
                  (loop_disconnect inp (loop_connect inp ⟨self, []⟩)).self.udp_read_fd_
                  inp.recv_read = true then
              add_queued_request (loop_disconnect inp (loop_connect inp ⟨self, []⟩)).self
                MODBUS40 READ_TOKEN (datagram_bytes inp.recv_read)
            else (loop_disconnect inp (loop_connect inp ⟨self, []⟩)).self)
            MODBUS40 WRITE_TOKEN (datagram_bytes inp.recv_write)
        else
          (if datagram_taken MAX_DATA_LEN
                (loop_disconnect inp (loop_connect inp ⟨self, []⟩)).self
                (loop_disconnect inp (loop_connect inp ⟨self, []⟩)).self.udp_read_fd_
                inp.recv_read = true then
            add_queued_request (loop_disconnect inp (loop_connect inp ⟨self, []⟩)).self
              MODBUS40 READ_TOKEN (datagram_bytes inp.recv_read)
          else (loop_disconnect inp (loop_connect inp ⟨self, []⟩)).self)) := by
  unfold loop
  rw [loop_poll_write_eq, loop_poll_read_eq]
  generalize loop_disconnect inp (loop_connect inp ⟨self, []⟩) = d
  cases hr : datagram_taken MAX_DATA_LEN d.self d.self.udp_read_fd_ inp.recv_read
  · simp
  · have hw : datagram_taken MAX_DATA_LEN
        (add_queued_request d.self MODBUS40 READ_TOKEN (datagram_bytes inp.recv_read))
        (add_queued_request d.self MODBUS40 READ_TOKEN
          (datagram_bytes inp.recv_read)).udp_write_fd_ inp.recv_write
          = datagram_taken MAX_DATA_LEN d.self d.self.udp_write_fd_ inp.recv_write :=
      datagram_taken_congr MAX_DATA_LEN _ d.self _ inp.recv_write rfl rfl
    simp [hw]

/-- The socket calls of a tick: those of the first two blocks, then one `recvfrom` per
socket that is valid while the component is connected, the read socket's first. -/
theorem loop_calls_eq {Env : Type} (MAX_DATA_LEN MODBUS40 READ_TOKEN WRITE_TOKEN : Nat)
    (self : NibeGwComponent Env) (inp : LoopInput) :
    (loop MAX_DATA_LEN MODBUS40 READ_TOKEN WRITE_TOKEN self inp).calls
      = (loop_disconnect inp (loop_connect inp ⟨self, []⟩)).calls
          ++ (if (loop_disconnect inp (loop_connect inp ⟨self, []⟩)).self.is_connected_ = true
                ∧ 0 ≤ (loop_disconnect inp (loop_connect inp ⟨self, []⟩)).self.udp_read_fd_ then
              [SysCall.recvfrom
                (loop_disconnect inp (loop_connect inp ⟨self, []⟩)).self.udp_read_fd_
                inp.recv_read.n]
            else [])
          ++ (if (loop_disconnect inp (loop_connect inp ⟨self, []⟩)).self.is_connected_ = true
                ∧ 0 ≤ (loop_disconnect inp (loop_connect inp ⟨self, []⟩)).self.udp_write_fd_ then
              [SysCall.recvfrom
                (loop_disconnect inp (loop_connect inp ⟨self, []⟩)).self.udp_write_fd_
                inp.recv_write.n]
            else []) := by
  unfold loop
  rw [loop_poll_write_eq, loop_poll_read_eq]
  generalize loop_disconnect inp (loop_connect inp ⟨self, []⟩) = d
  cases hr : datagram_taken MAX_DATA_LEN d.self d.self.udp_read_fd_ inp.recv_read
  · simp
  · have h1 : (add_queued_request d.self MODBUS40 READ_TOKEN
        (datagram_bytes inp.recv_read)).is_connected_ = d.self.is_connected_ := rfl
    have h2 : (add_queued_request d.self MODBUS40 READ_TOKEN
        (datagram_bytes inp.recv_read)).udp_write_fd_ = d.self.udp_write_fd_ := rfl
    simp [h1, h2]

/-- The flag and the descriptors after a tick are those the first two blocks leave. -/
theorem loop_sockets_after {Env : Type} (MAX_DATA_LEN MODBUS40 READ_TOKEN WRITE_TOKEN : Nat)
    (self : NibeGwComponent Env) (inp : LoopInput) :
    (loop MAX_DATA_LEN MODBUS40 READ_TOKEN WRITE_TOKEN self inp).self.is_connected_
        = (loop_disconnect inp (loop_connect inp ⟨self, []⟩)).self.is_connected_
      ∧ (loop MAX_DATA_LEN MODBUS40 READ_TOKEN WRITE_TOKEN self inp).self.udp_read_fd_
        = (loop_disconnect inp (loop_connect inp ⟨self, []⟩)).self.udp_read_fd_
      ∧ (loop MAX_DATA_LEN MODBUS40 READ_TOKEN WRITE_TOKEN self inp).self.udp_write_fd_
        = (loop_disconnect inp (loop_connect inp ⟨self, []⟩)).self.udp_write_fd_
      ∧ (loop MAX_DATA_LEN MODBUS40 READ_TOKEN WRITE_TOKEN self inp).self.udp_source_ip_
        = self.udp_source_ip_ := by
  obtain ⟨queues, extra, hloop⟩ :=
    loop_shape MAX_DATA_LEN MODBUS40 READ_TOKEN WRITE_TOKEN self inp
  rw [hloop]
  exact ⟨rfl, rfl, rfl, (loop_sockets_config self inp).1⟩

/-- A tick writes neither the listeners, the providers, the targets, the allow-list nor
the ports. -/
theorem loop_config_after {Env : Type} (MAX_DATA_LEN MODBUS40 READ_TOKEN WRITE_TOKEN : Nat)
    (self : NibeGwComponent Env) (inp : LoopInput) :
    (loop MAX_DATA_LEN MODBUS40 READ_TOKEN WRITE_TOKEN self inp).self.message_listener_ = self.message_listener_
      ∧ (loop MAX_DATA_LEN MODBUS40 READ_TOKEN WRITE_TOKEN self inp).self.requests_provider_ = self.requests_provider_
      ∧ (loop MAX_DATA_LEN MODBUS40 READ_TOKEN WRITE_TOKEN self inp).self.udp_targets_ = self.udp_targets_
      ∧ (loop MAX_DATA_LEN MODBUS40 READ_TOKEN WRITE_TOKEN self inp).self.udp_source_ip_ = self.udp_source_ip_
      ∧ (loop MAX_DATA_LEN MODBUS40 READ_TOKEN WRITE_TOKEN self inp).self.udp_read_port_ = self.udp_read_port_
      ∧ (loop MAX_DATA_LEN MODBUS40 READ_TOKEN WRITE_TOKEN self inp).self.udp_write_port_ = self.udp_write_port_ := by
  obtain ⟨queues, extra, hloop⟩ :=
    loop_shape MAX_DATA_LEN MODBUS40 READ_TOKEN WRITE_TOKEN self inp
  rw [hloop]
  show (loop_disconnect inp (loop_connect inp ⟨self, []⟩)).self.message_listener_ = _
    ∧ (loop_disconnect inp (loop_connect inp ⟨self, []⟩)).self.requests_provider_ = _
    ∧ (loop_disconnect inp (loop_connect inp ⟨self, []⟩)).self.udp_targets_ = _
    ∧ (loop_disconnect inp (loop_connect inp ⟨self, []⟩)).self.udp_source_ip_ = _
    ∧ (loop_disconnect inp (loop_connect inp ⟨self, []⟩)).self.udp_read_port_ = _
    ∧ (loop_disconnect inp (loop_connect inp ⟨self, []⟩)).self.udp_write_port_ = _
  unfold loop_disconnect loop_connect
  split_ifs <;> exact ⟨rfl, rfl, rfl, rfl, rfl, rfl⟩

/-- The request queues after a tick, from those before it: the answer of the read poll is
enqueued under `(MODBUS40, READ_TOKEN)` when taken, then the answer of the write poll
under `(MODBUS40, WRITE_TOKEN)` when taken. -/
theorem loop_requests_eq {Env : Type} (MAX_DATA_LEN MODBUS40 READ_TOKEN WRITE_TOKEN : Nat)
    (self : NibeGwComponent Env) (inp : LoopInput) :
    (loop MAX_DATA_LEN MODBUS40 READ_TOKEN WRITE_TOKEN self inp).self.requests_
      = (if datagram_taken MAX_DATA_LEN (loop MAX_DATA_LEN MODBUS40 READ_TOKEN WRITE_TOKEN self inp).self (loop MAX_DATA_LEN MODBUS40 READ_TOKEN WRITE_TOKEN self inp).self.udp_write_fd_ inp.recv_write
              = true then
          add_queued_request
            (if datagram_taken MAX_DATA_LEN (loop MAX_DATA_LEN MODBUS40 READ_TOKEN WRITE_TOKEN self inp).self (loop MAX_DATA_LEN MODBUS40 READ_TOKEN WRITE_TOKEN self inp).self.udp_read_fd_ inp.recv_read
                  = true then
              add_queued_request self MODBUS40 READ_TOKEN (datagram_bytes inp.recv_read)
            else self)
            MODBUS40 WRITE_TOKEN (datagram_bytes inp.recv_write)
        else
          (if datagram_taken MAX_DATA_LEN (loop MAX_DATA_LEN MODBUS40 READ_TOKEN WRITE_TOKEN self inp).self (loop MAX_DATA_LEN MODBUS40 READ_TOKEN WRITE_TOKEN self inp).self.udp_read_fd_ inp.recv_read
                = true then
            add_queued_request self MODBUS40 READ_TOKEN (datagram_bytes inp.recv_read)
          else self)).requests_ := by
  obtain ⟨hc, hr, hw, hs⟩ :=
    loop_sockets_after MAX_DATA_LEN MODBUS40 READ_TOKEN WRITE_TOKEN self inp
  have hcfg := (loop_sockets_config self inp).1
  have htr : datagram_taken MAX_DATA_LEN (loop MAX_DATA_LEN MODBUS40 READ_TOKEN WRITE_TOKEN self inp).self (loop MAX_DATA_LEN MODBUS40 READ_TOKEN WRITE_TOKEN self inp).self.udp_read_fd_ inp.recv_read
      = datagram_taken MAX_DATA_LEN (loop_disconnect inp (loop_connect inp ⟨self, []⟩)).self
          (loop_disconnect inp (loop_connect inp ⟨self, []⟩)).self.udp_read_fd_
          inp.recv_read := by
    rw [hr]
    exact datagram_taken_congr MAX_DATA_LEN _ _ _ _ hc (hs.trans hcfg.symm)
  have htw : datagram_taken MAX_DATA_LEN (loop MAX_DATA_LEN MODBUS40 READ_TOKEN WRITE_TOKEN self inp).self (loop MAX_DATA_LEN MODBUS40 READ_TOKEN WRITE_TOKEN self inp).self.udp_write_fd_ inp.recv_write
      = datagram_taken MAX_DATA_LEN (loop_disconnect inp (loop_connect inp ⟨self, []⟩)).self
          (loop_disconnect inp (loop_connect inp ⟨self, []⟩)).self.udp_write_fd_
          inp.recv_write := by
    rw [hw]
    exact datagram_taken_congr MAX_DATA_LEN _ _ _ _ hc (hs.trans hcfg.symm)
  rw [htr, htw, loop_self_eq]
  have hreq := loop_sockets_requests self inp
  revert hreq
  generalize loop_disconnect inp (loop_connect inp ⟨self, []⟩) = d
  intro hreq
  cases datagram_taken MAX_DATA_LEN d.self d.self.udp_read_fd_ inp.recv_read <;>
    cases datagram_taken MAX_DATA_LEN d.self d.self.udp_write_fd_ inp.recv_write <;>
    simp [add_queued_request, hreq]

/-- C12. Accepted datagrams are enqueued verbatim under the right channel. For a datagram
of length `len` with `0 < len ≤ MAX_DATA_LEN` from an allowed source, received while
connected: (1) the queue of `(address, token)` after `handle_udp_packet` is the queue
before (empty if absent) followed by one new entry, the bytes at offsets `0 .. len - 1`
in order; (2) that entry has length `len`; (3) every other key's queue is unchanged;
(4) providers and listeners are unchanged. For every tick of `loop`, whatever the
component and whatever both polls answer: (5) the queues afterwards are the queues
before with the read socket's datagram enqueued under `(MODBUS40, READ_TOKEN)` when it
is taken and then the write socket's under `(MODBUS40, WRITE_TOKEN)` when it is taken,
a datagram being taken when the component is connected after the first two blocks, its
socket is valid, and it passes the tests of size and source; (6) when the two tokens
differ the read socket's datagram reaches the queue of `(MODBUS40, READ_TOKEN)` only and
the write socket's that of `(MODBUS40, WRITE_TOKEN)` only; (7) no other key's queue
changes; (8) each socket that is valid while connected is polled once, the read socket
first; (9) the tick leaves listeners, providers, targets, allow-list and ports as they
were. -/
theorem accepted_datagram_enqueued {Env : Type}
    (MAX_DATA_LEN MODBUS40 READ_TOKEN WRITE_TOKEN : Nat) (self : NibeGwComponent Env)
    (inp : LoopInput) :
    (∀ (data : Nat → Nat) (len : Int) (from_ip : IPAddress) (address token : Nat),
        self.is_connected_ = true → 0 < len → len ≤ (MAX_DATA_LEN : Int) →
        is_source_ip_allowed self from_ip = true →
        (handle_udp_packet MAX_DATA_LEN self data len from_ip address token).requests_
              (address, token)
            = some ((self.requests_ (address, token)).getD []
                ++ [(List.range len.toNat).map data])
          ∧ (((List.range len.toNat).map data).length : Int) = len
          ∧ (∀ key : request_key_type, key ≠ (address, token) →
              (handle_udp_packet MAX_DATA_LEN self data len from_ip address token).requests_ key
                = self.requests_ key)
          ∧ (handle_udp_packet MAX_DATA_LEN self data len from_ip address
                token).requests_provider_ = self.requests_provider_
          ∧ (handle_udp_packet MAX_DATA_LEN self data len from_ip address
                token).message_listener_ = self.message_listener_)
      ∧ (loop MAX_DATA_LEN MODBUS40 READ_TOKEN WRITE_TOKEN self inp).self.requests_
        = (if datagram_taken MAX_DATA_LEN (loop MAX_DATA_LEN MODBUS40 READ_TOKEN WRITE_TOKEN self inp).self (loop MAX_DATA_LEN MODBUS40 READ_TOKEN WRITE_TOKEN self inp).self.udp_write_fd_ inp.recv_write
                = true then
            add_queued_request
              (if datagram_taken MAX_DATA_LEN (loop MAX_DATA_LEN MODBUS40 READ_TOKEN WRITE_TOKEN self inp).self (loop MAX_DATA_LEN MODBUS40 READ_TOKEN WRITE_TOKEN self inp).self.udp_read_fd_ inp.recv_read
                    = true then
                add_queued_request self MODBUS40 READ_TOKEN (datagram_bytes inp.recv_read)
              else self)
              MODBUS40 WRITE_TOKEN (datagram_bytes inp.recv_write)
          else
            (if datagram_taken MAX_DATA_LEN (loop MAX_DATA_LEN MODBUS40 READ_TOKEN WRITE_TOKEN self inp).self (loop MAX_DATA_LEN MODBUS40 READ_TOKEN WRITE_TOKEN self inp).self.udp_read_fd_ inp.recv_read
                  = true then
              add_queued_request self MODBUS40 READ_TOKEN (datagram_bytes inp.recv_read)
            else self)).requests_
      ∧ (READ_TOKEN ≠ WRITE_TOKEN →
          (loop MAX_DATA_LEN MODBUS40 READ_TOKEN WRITE_TOKEN self inp).self.requests_ (MODBUS40, READ_TOKEN)
              = (if datagram_taken MAX_DATA_LEN (loop MAX_DATA_LEN MODBUS40 READ_TOKEN WRITE_TOKEN self inp).self (loop MAX_DATA_LEN MODBUS40 READ_TOKEN WRITE_TOKEN self inp).self.udp_read_fd_
                    inp.recv_read = true then
                  some ((self.requests_ (MODBUS40, READ_TOKEN)).getD []
                    ++ [datagram_bytes inp.recv_read])
                else self.requests_ (MODBUS40, READ_TOKEN))
            ∧ (loop MAX_DATA_LEN MODBUS40 READ_TOKEN WRITE_TOKEN self inp).self.requests_ (MODBUS40, WRITE_TOKEN)
              = (if datagram_taken MAX_DATA_LEN (loop MAX_DATA_LEN MODBUS40 READ_TOKEN WRITE_TOKEN self inp).self (loop MAX_DATA_LEN MODBUS40 READ_TOKEN WRITE_TOKEN self inp).self.udp_write_fd_
                    inp.recv_write = true then
                  some ((self.requests_ (MODBUS40, WRITE_TOKEN)).getD []
                    ++ [datagram_bytes inp.recv_write])
                else self.requests_ (MODBUS40, WRITE_TOKEN)))
      ∧ (∀ key : request_key_type, key ≠ (MODBUS40, READ_TOKEN) →
          key ≠ (MODBUS40, WRITE_TOKEN) →
          (loop MAX_DATA_LEN MODBUS40 READ_TOKEN WRITE_TOKEN self inp).self.requests_ key = self.requests_ key)
      ∧ (loop MAX_DATA_LEN MODBUS40 READ_TOKEN WRITE_TOKEN self inp).calls
        = (loop_disconnect inp (loop_connect inp ⟨self, []⟩)).calls
            ++ (if (loop MAX_DATA_LEN MODBUS40 READ_TOKEN WRITE_TOKEN self inp).self.is_connected_ = true ∧ 0 ≤ (loop MAX_DATA_LEN MODBUS40 READ_TOKEN WRITE_TOKEN self inp).self.udp_read_fd_ then
                [SysCall.recvfrom (loop MAX_DATA_LEN MODBUS40 READ_TOKEN WRITE_TOKEN self inp).self.udp_read_fd_ inp.recv_read.n]
              else [])
            ++ (if (loop MAX_DATA_LEN MODBUS40 READ_TOKEN WRITE_TOKEN self inp).self.is_connected_ = true ∧ 0 ≤ (loop MAX_DATA_LEN MODBUS40 READ_TOKEN WRITE_TOKEN self inp).self.udp_write_fd_ then
                [SysCall.recvfrom (loop MAX_DATA_LEN MODBUS40 READ_TOKEN WRITE_TOKEN self inp).self.udp_write_fd_ inp.recv_write.n]
              else [])
      ∧ ((loop MAX_DATA_LEN MODBUS40 READ_TOKEN WRITE_TOKEN self inp).self.message_listener_ = self.message_listener_
          ∧ (loop MAX_DATA_LEN MODBUS40 READ_TOKEN WRITE_TOKEN self inp).self.requests_provider_ = self.requests_provider_
          ∧ (loop MAX_DATA_LEN MODBUS40 READ_TOKEN WRITE_TOKEN self inp).self.udp_targets_ = self.udp_targets_
          ∧ (loop MAX_DATA_LEN MODBUS40 READ_TOKEN WRITE_TOKEN self inp).self.udp_source_ip_ = self.udp_source_ip_
          ∧ (loop MAX_DATA_LEN MODBUS40 READ_TOKEN WRITE_TOKEN self inp).self.udp_read_port_ = self.udp_read_port_
          ∧ (loop MAX_DATA_LEN MODBUS40 READ_TOKEN WRITE_TOKEN self inp).self.udp_write_port_ = self.udp_write_port_) := by
  have hreq := loop_requests_eq MAX_DATA_LEN MODBUS40 READ_TOKEN WRITE_TOKEN self inp
  refine ⟨?_, hreq, ?_, ?_, ?_,
    loop_config_after MAX_DATA_LEN MODBUS40 READ_TOKEN WRITE_TOKEN self inp⟩
  · intro data len from_ip address token hconn hpos hmax hsrc
    have hacc := handle_udp_packet_accept MAX_DATA_LEN self data len from_ip address token
      hconn hpos hmax hsrc
    refine ⟨?_, ?_, ?_, ?_, ?_⟩
    · rw [hacc]
      simp [add_queued_request]
    · simp only [List.length_map, List.length_range]
      exact Int.toNat_of_nonneg (by omega)
    · intro key hkey
      rw [hacc]
      simp [add_queued_request, Function.update_noteq hkey]
    · rw [hacc]
      rfl
    · rw [hacc]
      rfl
  · intro hne
    have hk1 : ((MODBUS40, READ_TOKEN) : request_key_type) ≠ (MODBUS40, WRITE_TOKEN) := by
      intro h
      exact hne (Prod.mk.inj h).2
    rw [hreq]
    cases datagram_taken MAX_DATA_LEN (loop MAX_DATA_LEN MODBUS40 READ_TOKEN WRITE_TOKEN self inp).self (loop MAX_DATA_LEN MODBUS40 READ_TOKEN WRITE_TOKEN self inp).self.udp_read_fd_ inp.recv_read <;>
      cases datagram_taken MAX_DATA_LEN (loop MAX_DATA_LEN MODBUS40 READ_TOKEN WRITE_TOKEN self inp).self (loop MAX_DATA_LEN MODBUS40 READ_TOKEN WRITE_TOKEN self inp).self.udp_write_fd_ inp.recv_write <;>
      simp [add_queued_request, Function.update_noteq hk1, Function.update_noteq hk1.symm]
  · intro key hr hw
    rw [hreq]
    cases datagram_taken MAX_DATA_LEN (loop MAX_DATA_LEN MODBUS40 READ_TOKEN WRITE_TOKEN self inp).self (loop MAX_DATA_LEN MODBUS40 READ_TOKEN WRITE_TOKEN self inp).self.udp_read_fd_ inp.recv_read <;>
      cases datagram_taken MAX_DATA_LEN (loop MAX_DATA_LEN MODBUS40 READ_TOKEN WRITE_TOKEN self inp).self (loop MAX_DATA_LEN MODBUS40 READ_TOKEN WRITE_TOKEN self inp).self.udp_write_fd_ inp.recv_write <;>
      simp [add_queued_request, Function.update_noteq hr, Function.update_noteq hw]
  · obtain ⟨hc, hr, hw, _⟩ :=
      loop_sockets_after MAX_DATA_LEN MODBUS40 READ_TOKEN WRITE_TOKEN self inp
    rw [hc, hr, hw]
    exact loop_calls_eq MAX_DATA_LEN MODBUS40 READ_TOKEN WRITE_TOKEN self inp

/-- Witness for C12: with `MODBUS40 = 0x20`, `READ_TOKEN = 0x69`, `WRITE_TOKEN = 0x6B`, a
tick in which the read socket delivers `[1, 2, 3]` and the write socket `[8, 9]` leaves
`[1, 2, 3]` in the queue of `(0x20, 0x69)` and `[8, 9]` in that of `(0x20, 0x6B)`; and
`handle_udp_packet` alone appends `[1, 2, 3]` to the queue it is called for. -/
theorem accepted_datagram_enqueued_witness :
    ((loop 128 0x20 0x69 0x6B connected_example both_tick_example).self.requests_ (0x20, 0x69)
          = some [[1, 2, 3]]
        ∧ (loop 128 0x20 0x69 0x6B connected_example both_tick_example).self.requests_
            (0x20, 0x6B) = some [[8, 9]])
      ∧ (handle_udp_packet 128 connected_example (frame_mem [1, 2, 3]) 3 0xC0A80002 0x20
            0x69).requests_ (0x20, 0x69)
        = some ((connected_example.requests_ (0x20, 0x69)).getD []
            ++ [(List.range (3 : Int).toNat).map (frame_mem [1, 2, 3])]) :=
  ⟨⟨((accepted_datagram_enqueued 128 0x20 0x69 0x6B connected_example
        both_tick_example).2.2.1 (by decide)).1.trans (by decide),
      ((accepted_datagram_enqueued 128 0x20 0x69 0x6B connected_example
        both_tick_example).2.2.1 (by decide)).2.trans (by decide)⟩,
    ((accepted_datagram_enqueued 128 0x20 0x69 0x6B connected_example
      both_tick_example).1 (frame_mem [1, 2, 3]) 3 0xC0A80002 0x20 0x69 rfl (by decide)
      (by decide) rfl).1⟩

/-! ## The connectivity state machine, tick by tick -/

end nibegw
end esphome
